import Mathlib

/-!
# Verification of the titan-7 packet-rewriting core

This file gives a shallow embedding, over byte buffers modelled as `List Nat`
(each entry a byte value `< 256`), of the eBPF packet-rewriting programs of the
repository:

* `src/titan/ebpf/tcp_fingerprint.c` — `tcp_fingerprint_xdp`, `tcp_fingerprint_tc`,
  `update_ip_checksum`, `update_tcp_checksum`, `csum_fold_helper`;
* `src/iso/.../opt/titan/lib/network_shield_original.c` — `network_shield_xdp`,
  `ip_checksum`, the incremental `update_tcp_checksum`;
* `src/iso/.../opt/titan/core/network_shield_v6.c` — `titan_tc_egress`, `get_os_profile`;
* `src/iso/.../opt/lucid-empire/backend/network/xdp_outbound.c` — `xdp_outbound_masking`.

Conventions of the embedding:

* A packet is a `List Nat` of byte values; `data_end` is the list length.
  The Ethernet header starts at offset 0, the IPv4 header at offset 14.
* Multi-byte header fields are manipulated through their big-endian (network
  order) numeric values (`be16`, `be32`).  The C code sums 16-bit words in
  native order and converts with `bpf_ntohs`/`bpf_htons` where it needs host
  values; since the internet one's-complement sum is byte-order independent the
  stored checksum bytes are exactly the big-endian encoding of the values
  computed here, which is what the definitions below produce directly.
* eBPF map lookups are external inputs; they are modelled as explicit
  parameters (`Option` for possibly-missing entries).  Statistics-map updates
  are side effects invisible in the packet buffer and are not modelled.
* `&&& 0xFFFF` is written `% 65536` and `>>> 16` is written `/ 65536`;
  the two presentations coincide on `Nat`.
-/

/-- Read the byte at index `i`; reads out of range return 0.  (In the C source
an out-of-range read is impossible on the guarded paths; for the option-walk
claims the reads themselves are additionally logged, see `tsOptionWalk`.) -/
def getByte : List Nat → Nat → Nat
  | [], _ => 0
  | x :: _, 0 => x
  | _ :: xs, n + 1 => getByte xs n

/-- Write the byte at index `i`; writes out of range leave the buffer unchanged. -/
def setByte : List Nat → Nat → Nat → List Nat
  | [], _, _ => []
  | _ :: xs, 0, v => v :: xs
  | x :: xs, n + 1, v => x :: setByte xs n v

/-- Big-endian 16-bit word at offset `i` (network byte order, as on the wire). -/
def be16 (b : List Nat) (i : Nat) : Nat :=
  getByte b i * 256 + getByte b (i + 1)

/-- Store a 16-bit value big-endian at offset `i`. -/
def setBe16 (b : List Nat) (i v : Nat) : List Nat :=
  setByte (setByte b i (v / 256 % 256)) (i + 1) (v % 256)

/-- Big-endian 32-bit word at offset `i`. -/
def be32 (b : List Nat) (i : Nat) : Nat :=
  ((getByte b i * 256 + getByte b (i + 1)) * 256 + getByte b (i + 2)) * 256
    + getByte b (i + 3)

/-- Store a 32-bit value big-endian at offset `i`. -/
def setBe32 (b : List Nat) (i v : Nat) : List Nat :=
  setByte (setByte (setByte (setByte b i (v / 16777216 % 256))
    (i + 1) (v / 65536 % 256)) (i + 2) (v / 256 % 256)) (i + 3) (v % 256)

/-- All entries of the buffer are byte values. -/
def Bytes (b : List Nat) : Prop := ∀ v ∈ b, v < 256

instance (b : List Nat) : Decidable (Bytes b) :=
  inferInstanceAs (Decidable (∀ v ∈ b, v < 256))

@[simp] theorem length_setByte (b : List Nat) (i v : Nat) :
    (setByte b i v).length = b.length := by
  induction b generalizing i with
  | nil => rfl
  | cons x xs ih =>
    cases i with
    | zero => rfl
    | succ n => simp [setByte, ih]

theorem getByte_setByte_eq {b : List Nat} {i : Nat} (h : i < b.length) (v : Nat) :
    getByte (setByte b i v) i = v := by
  induction b generalizing i with
  | nil => simp at h
  | cons x xs ih =>
    cases i with
    | zero => rfl
    | succ n =>
      simp only [List.length_cons] at h
      exact ih (by omega)

theorem getByte_setByte_ne (b : List Nat) {i j : Nat} (hij : i ≠ j) (v : Nat) :
    getByte (setByte b i v) j = getByte b j := by
  induction b generalizing i j with
  | nil => rfl
  | cons x xs ih =>
    cases i with
    | zero =>
      cases j with
      | zero => exact absurd rfl hij
      | succ m => rfl
    | succ n =>
      cases j with
      | zero => rfl
      | succ m => exact ih (by omega)

theorem getByte_oob {b : List Nat} {i : Nat} (h : b.length ≤ i) : getByte b i = 0 := by
  induction b generalizing i with
  | nil => rfl
  | cons x xs ih =>
    cases i with
    | zero => simp at h
    | succ n =>
      simp only [List.length_cons] at h
      exact ih (by omega)

theorem setByte_oob : ∀ (b : List Nat) (i : Nat), b.length ≤ i → ∀ v,
    setByte b i v = b
  | [], _, _, _ => rfl
  | x :: xs, 0, h, v => by simp at h
  | x :: xs, n + 1, h, v => by
    simp only [List.length_cons] at h
    simp [setByte, setByte_oob xs n (by omega) v]

theorem setByte_self {b : List Nat} {i v : Nat} (h : getByte b i = v) :
    setByte b i v = b := by
  induction b generalizing i with
  | nil => rfl
  | cons x xs ih =>
    cases i with
    | zero => simp [getByte] at h; simp [setByte, h]
    | succ n => simp [setByte, ih h]

theorem setByte_comm : ∀ (b : List Nat) (i j : Nat), i ≠ j → ∀ v w,
    setByte (setByte b i v) j w = setByte (setByte b j w) i v
  | [], _, _, _, _, _ => rfl
  | x :: xs, 0, 0, hij, _, _ => absurd rfl hij
  | x :: xs, 0, m + 1, _, _, _ => rfl
  | x :: xs, n + 1, 0, _, _, _ => rfl
  | x :: xs, n + 1, m + 1, hij, v, w => by
    simp [setByte, setByte_comm xs n m (by omega) v w]

theorem bytes_setByte : ∀ {b : List Nat}, Bytes b → ∀ (i : Nat) {v : Nat}, v < 256 →
    Bytes (setByte b i v)
  | [], hb, _, _, _ => hb
  | x :: xs, hb, 0, v, hv => by
    intro y hy
    rcases List.mem_cons.mp hy with h | h
    · omega
    · exact hb y (List.mem_cons_of_mem _ h)
  | x :: xs, hb, n + 1, v, hv => by
    intro y hy
    rcases List.mem_cons.mp hy with h | h
    · exact hb y (by simp [h])
    · exact bytes_setByte (fun z hz => hb z (List.mem_cons_of_mem _ hz)) n hv y h

theorem getByte_lt : ∀ {b : List Nat}, Bytes b → ∀ i, getByte b i < 256
  | [], _, _ => by simp [getByte]
  | x :: xs, hb, 0 => hb x (by simp)
  | x :: xs, hb, n + 1 => getByte_lt (fun z hz => hb z (List.mem_cons_of_mem _ hz)) n

theorem be16_lt {b : List Nat} (hb : Bytes b) (i : Nat) : be16 b i < 65536 := by
  have h1 := getByte_lt hb i
  have h2 := getByte_lt hb (i + 1)
  unfold be16; omega

@[simp] theorem length_setBe16 (b : List Nat) (i v : Nat) :
    (setBe16 b i v).length = b.length := by
  simp [setBe16]

@[simp] theorem length_setBe32 (b : List Nat) (i v : Nat) :
    (setBe32 b i v).length = b.length := by
  simp [setBe32]

theorem getByte_setBe16_ne (b : List Nat) {i j : Nat}
    (h1 : j ≠ i) (h2 : j ≠ i + 1) (v : Nat) :
    getByte (setBe16 b i v) j = getByte b j := by
  unfold setBe16
  rw [getByte_setByte_ne _ (by omega), getByte_setByte_ne _ (by omega)]

theorem be16_setBe16_ne (b : List Nat) {i j : Nat}
    (h1 : j + 1 ≠ i) (h2 : j ≠ i + 1) (h3 : j ≠ i) (v : Nat) :
    be16 (setBe16 b i v) j = be16 b j := by
  unfold be16
  rw [getByte_setBe16_ne b h3 h2, getByte_setBe16_ne b (by omega) (by omega)]

theorem be16_setBe16_eq {b : List Nat} {i : Nat} (h : i + 1 < b.length)
    {v : Nat} (hv : v < 65536) : be16 (setBe16 b i v) i = v := by
  unfold be16 setBe16
  rw [getByte_setByte_eq (by simpa using h), getByte_setByte_ne _ (by omega),
    getByte_setByte_eq (by omega)]
  omega

theorem bytes_setBe16 {b : List Nat} (hb : Bytes b) (i v : Nat) :
    Bytes (setBe16 b i v) := by
  unfold setBe16
  exact bytes_setByte (bytes_setByte hb i (by omega)) (i + 1) (by omega)

theorem bytes_setBe32 {b : List Nat} (hb : Bytes b) (i v : Nat) :
    Bytes (setBe32 b i v) := by
  unfold setBe32
  exact bytes_setByte (bytes_setByte (bytes_setByte (bytes_setByte hb i (by omega))
    (i + 1) (by omega)) (i + 2) (by omega)) (i + 3) (by omega)

/-! ## The one's-complement carry fold

`network_shield_original.c` folds with `while (sum >> 16) sum = (sum & 0xFFFF)
+ (sum >> 16);`.  The loop is modelled with explicit fuel (`foldCarryAux`);
the value itself is a sufficient fuel bound because every iteration strictly
decreases the accumulator, so `foldCarry` computes exactly the C loop's result.
-/

def foldCarryAux : Nat → Nat → Nat
  | 0, x => x
  | n + 1, x => if x < 65536 then x else foldCarryAux n (x % 65536 + x / 65536)

/-- The `while (sum >> 16)` carry fold of `ip_checksum` / `update_tcp_checksum`
in `network_shield_original.c`. -/
def foldCarry (x : Nat) : Nat := foldCarryAux x x

theorem foldCarryAux_spec :
    ∀ n x, x ≤ n →
      foldCarryAux n x < 65536 ∧ foldCarryAux n x % 65535 = x % 65535 ∧
        (x ≠ 0 → foldCarryAux n x ≠ 0) := by
  intro n
  induction n with
  | zero =>
    intro x hx
    have : x = 0 := by omega
    subst this
    exact ⟨by simp [foldCarryAux], rfl, by simp⟩
  | succ n ih =>
    intro x hx
    by_cases h : x < 65536
    · simp [foldCarryAux, h]
    · have hy : x % 65536 + x / 65536 ≤ n := by omega
      have hrec := ih _ hy
      have hmod : (x % 65536 + x / 65536) % 65535 = x % 65535 := by omega
      refine ⟨?_, ?_, ?_⟩
      · simpa [foldCarryAux, h] using hrec.1
      · simp only [foldCarryAux, if_neg h]
        rw [hrec.2.1, hmod]
      · intro _
        simp only [foldCarryAux, if_neg h]
        exact hrec.2.2 (by omega)

theorem foldCarry_lt (x : Nat) : foldCarry x < 65536 :=
  (foldCarryAux_spec x x le_rfl).1

theorem foldCarry_mod (x : Nat) : foldCarry x % 65535 = x % 65535 :=
  (foldCarryAux_spec x x le_rfl).2.1

theorem foldCarry_ne_zero {x : Nat} (hx : x ≠ 0) : foldCarry x ≠ 0 :=
  (foldCarryAux_spec x x le_rfl).2.2 hx

/-- Two nonzero one's-complement folds of congruent sums agree bit-for-bit. -/
theorem foldCarry_congr {x y : Nat} (hx : x ≠ 0) (hy : y ≠ 0)
    (h : x % 65535 = y % 65535) : foldCarry x = foldCarry y := by
  have hx1 := foldCarry_lt x
  have hy1 := foldCarry_lt y
  have hx2 := foldCarry_mod x
  have hy2 := foldCarry_mod y
  have hx3 := foldCarry_ne_zero hx
  have hy3 := foldCarry_ne_zero hy
  omega

/-- One bounded folding step: `if (csum >> 16) csum = (csum & 0xffff) + (csum >> 16);`. -/
def foldStep (x : Nat) : Nat := if x / 65536 ≠ 0 then x % 65536 + x / 65536 else x

/-- `csum_fold_helper` of `tcp_fingerprint.c`: four conditional folding steps
followed by complement (`~csum` truncated to 16 bits). -/
def csum_fold_helper (x : Nat) : Nat :=
  65535 - foldStep (foldStep (foldStep (foldStep x))) % 65536

theorem foldStep_mod (x : Nat) : foldStep x % 65535 = x % 65535 := by
  unfold foldStep; split <;> omega

theorem foldStep_ne_zero {x : Nat} (hx : x ≠ 0) : foldStep x ≠ 0 := by
  unfold foldStep; split <;> omega

/-- For any 32-bit accumulator the four bounded steps of `csum_fold_helper`
compute the same fold as the unbounded `while` loop. -/
theorem foldStep_four_eq_foldCarry {x : Nat} (hx : x < 4294967296) :
    foldStep (foldStep (foldStep (foldStep x))) = foldCarry x := by
  by_cases h0 : x = 0
  · subst h0; rfl
  · have h1 : foldStep x < 131071 := by unfold foldStep; split <;> omega
    have h2 : foldStep (foldStep x) < 65537 := by
      generalize foldStep x = y at h1 ⊢
      unfold foldStep; split <;> omega
    have h3 : foldStep (foldStep (foldStep x)) < 65536 := by
      generalize foldStep (foldStep x) = y at h2 ⊢
      unfold foldStep; split <;> omega
    have h4 : foldStep (foldStep (foldStep (foldStep x))) =
        foldStep (foldStep (foldStep x)) := by
      generalize foldStep (foldStep (foldStep x)) = y at h3 ⊢
      unfold foldStep; split <;> omega
    have hne : foldStep (foldStep (foldStep (foldStep x))) ≠ 0 :=
      foldStep_ne_zero (foldStep_ne_zero (foldStep_ne_zero (foldStep_ne_zero h0)))
    have hmod : foldStep (foldStep (foldStep (foldStep x))) % 65535 = x % 65535 := by
      rw [foldStep_mod, foldStep_mod, foldStep_mod, foldStep_mod]
    have hlt : foldStep (foldStep (foldStep (foldStep x))) < 65536 := by
      rw [h4]; exact h3
    have hc1 := foldCarry_lt x
    have hc2 := foldCarry_mod x
    have hc3 := foldCarry_ne_zero h0
    omega

/-! ## Header field accessors (fixed layout: Ethernet at 0, IPv4 at 14) -/

/-- `iph->ihl`: low nibble of the version/ihl byte at offset 14. -/
def ipIhl (b : List Nat) : Nat := getByte b 14 % 16

/-- Offset of the TCP header: `(void *)iph + (iph->ihl << 2)`. -/
def tcpOff (b : List Nat) : Nat := 14 + ipIhl b * 4

/-- `tcph->syn`: bit 1 of the flags byte (offset 13 of the TCP header). -/
def tcpSyn (b : List Nat) (toff : Nat) : Bool := (getByte b (toff + 13)).testBit 1

/-- `tcph->ack`: bit 4 of the flags byte. -/
def tcpAck (b : List Nat) (toff : Nat) : Bool := (getByte b (toff + 13)).testBit 4

/-- `tcph->doff`: high nibble of byte 12 of the TCP header. -/
def tcpDoff (b : List Nat) (toff : Nat) : Nat := getByte b (toff + 12) / 16

/-- `XDP_PASS` verdict. -/
def XDP_PASS : Nat := 2

/-- `TC_ACT_OK` verdict. -/
def TC_ACT_OK : Nat := 0

/-! ## Checksum engine -/

/-- Sum of `n` 16-bit words starting at offset `off` (the unguarded summation
loops of the C helpers). -/
def sumWords (b : List Nat) (off : Nat) : Nat → Nat
  | 0 => 0
  | n + 1 => be16 b off + sumWords b (off + 2) n

/-- `update_ip_checksum` of `tcp_fingerprint.c`: zero `iph->check` (bytes
24–25), sum exactly ten 16-bit words from offset 14 (`sizeof(*iph) >> 1`
iterations — a fixed 20 bytes, independent of `ihl`), then `csum_fold_helper`. -/
def update_ip_checksum (b : List Nat) : Nat :=
  let b0 := setBe16 b 24 0
  csum_fold_helper (sumWords b0 14 10)

/-- The guarded TCP-word summation of `update_tcp_checksum` in
`tcp_fingerprint.c`: up to ten words from the TCP header start, stopping
(`break`) as soon as the next word would cross `data_end`. -/
def tfTcpWordsAux (b : List Nat) (toff : Nat) : Nat → Nat → Nat
  | 0, _ => 0
  | n + 1, i =>
    if toff + 2 * i + 2 ≤ b.length then
      be16 b (toff + 2 * i) + tfTcpWordsAux b toff n (i + 1)
    else 0

/-- `update_tcp_checksum` of `tcp_fingerprint.c` (full recompute): pseudo
header (source/destination address words, protocol 6, TCP segment length)
plus the first 20 bytes of the TCP header with `tcph->check` zeroed, folded
and complemented.  `tcp_len` is `bpf_ntohs(iph->tot_len) - (iph->ihl << 2)`
in 32-bit arithmetic, truncated to 16 bits by `bpf_htons`. -/
def update_tcp_checksum (b : List Nat) : Nat :=
  let toff := tcpOff b
  let tcp_len := (be16 b 16 + 4294967296 - ipIhl b * 4) % 4294967296
  let b0 := setBe16 b (toff + 16) 0
  let pseudo := be16 b0 26 + be16 b0 28 + be16 b0 30 + be16 b0 32 + 6 + tcp_len % 65536
  csum_fold_helper (pseudo + tfTcpWordsAux b0 toff 10 0)

/-- The guarded word summation of `ip_checksum` in `network_shield_original.c`:
ten unrolled iterations, the `i`-th adding the word at byte `2 i` only while
`i * 2 < len` where `len = iph->ihl * 4`. -/
def nsoIpSumAux (b : List Nat) (len : Nat) : Nat → Nat → Nat
  | 0, _ => 0
  | n + 1, i =>
    (if 2 * i < len then be16 b (14 + 2 * i) else 0) + nsoIpSumAux b len n (i + 1)

/-- `ip_checksum` of `network_shield_original.c`: zero `iph->check`, sum the
header words (ten unrolled iterations bounded by `ihl * 4` bytes), fold with
the `while (sum >> 16)` loop, return the 16-bit complement. -/
def ip_checksum (b : List Nat) : Nat :=
  let b0 := setBe16 b 24 0
  65535 - foldCarry (nsoIpSumAux b0 (ipIhl b0 * 4) 10 0)

/-- `update_tcp_checksum` of `network_shield_original.c` (incremental update
for one 16-bit field change): complement the stored checksum, add the
complement of the old value and the new value, fold, complement, store. -/
def nso_update_tcp_checksum (check old_val new_val : Nat) : Nat :=
  65535 - foldCarry ((65535 - check % 65536) + (65535 - old_val % 65536) + new_val % 65536)

/-- Modelled from the kernel helper semantics (external interface, RFC 1624):
`bpf_l3_csum_replace`/`bpf_l4_csum_replace` with a 2-byte field replace the
16-bit wire word `old_val` by `new_val` in the stored checksum. -/
def csum_replace2 (check old_val new_val : Nat) : Nat :=
  65535 - foldCarry ((65535 - check % 65536) + (65535 - old_val % 65536) + new_val % 65536)

/-- Modelled from the spec: the reference full-recompute IPv4 checksum — zero
the checksum field, sum the header's 16-bit big-endian words over the header's
declared length (`ihl × 4` bytes, i.e. `ihl × 2` words), fold carries until
none remain, then complement.  Used by claim C8 to compare against the two
implementations above. -/
def ipChecksumRef (b : List Nat) : Nat :=
  let b0 := setBe16 b 24 0
  65535 - foldCarry (sumWords b0 14 (ipIhl b * 2))

/-! ## Profile and configuration records -/

/-- `struct tcp_config` of `tcp_fingerprint.c` (field widths noted: ttl u8,
window_size u16, mss u16, window_scale u8, flags u8, timestamp_offset u32;
widths are enforced by reduction at the use sites). -/
structure tcp_config where
  ttl : Nat
  window_size : Nat
  mss : Nat
  window_scale : Nat
  sack_permitted : Nat
  timestamps : Nat
  timestamp_offset : Nat
deriving DecidableEq

/-- `get_windows_profile` of `tcp_fingerprint.c`.  The C initializer never
assigns `timestamp_offset`; the default path never reads it, so it is 0 here. -/
def get_windows_profile : tcp_config :=
  { ttl := 128, window_size := 65535, mss := 1460, window_scale := 8,
    sack_permitted := 1, timestamps := 0, timestamp_offset := 0 }

/-- `struct os_signature` of `network_shield_original.c`. -/
structure os_signature where
  ttl : Nat
  tcp_window : Nat
  tcp_mss : Nat
  tcp_sack_permitted : Nat
  tcp_timestamps : Nat
  tcp_window_scale : Nat
deriving DecidableEq

/-- The `signatures[]` table of `network_shield_original.c`:
index 0 = PERSONA_LINUX (default), 1 = PERSONA_WINDOWS, 2 = PERSONA_MACOS.
Indices above 2 are unreachable (the program clamps first). -/
def signatures : Nat → os_signature
  | 0 => ⟨64, 29200, 1460, 1, 1, 7⟩
  | 1 => ⟨128, 65535, 1460, 1, 0, 8⟩
  | 2 => ⟨64, 65535, 1460, 1, 1, 6⟩
  | _ + 3 => ⟨64, 29200, 1460, 1, 1, 7⟩

/-- `struct os_tcp_profile` of `network_shield_v6.c` (the `opt_order` array is
never read by `titan_tc_egress` and is omitted). -/
structure os_tcp_profile where
  ttl : Nat
  window_size : Nat
  window_scale : Nat
  mss : Nat
  sack_ok : Nat
  timestamps : Nat
  nop_count : Nat
deriving DecidableEq

/-- The fields of `struct titan_config` that `titan_tc_egress` reads (the
proxy/DNS/WebRTC fields are only used by the other programs of the file). -/
structure titan_config where
  tcp_fingerprint_enabled : Bool
  os_profile : Nat
deriving DecidableEq

/-- `get_os_profile` of `network_shield_v6.c`: a lookup in the
`titan_os_profiles` BPF ARRAY map (`max_entries` 4).  An ARRAY-map lookup
returns NULL for keys at or beyond `max_entries`; entries 0–3 hold whatever
userspace populated, modelled by the function `profiles`. -/
def get_os_profile (profiles : Nat → os_tcp_profile) (profile_id : Nat) :
    Option os_tcp_profile :=
  if profile_id < 4 then some (profiles profile_id) else none

/-! ## TCP option walks

Each walk returns the rewritten buffer together with the list of absolute
byte offsets it read from the packet, so that the bounded-walk safety claims
can be stated about the reads themselves.  `base` is the absolute offset of
the options region (`(__u8 *)tcph + 20`), `hdrLen` is `tcph->doff * 4`, and
the loop guard `opts + i < opts_end` is `i < hdrLen - 20`.
-/

/-- The timestamp-aging walk of `tcp_fingerprint_xdp` (kind 8, `tsval` at
option offset 2 incremented by the configured offset mod 2^32).  Note the
length byte `opts[i + 1]` is read with no bounds check of its own.
The first `Nat` argument is structural fuel for the `#pragma unroll` loop:
the program calls the walk with fuel 40 and `i = 0`, and since `i` strictly
increases each iteration the invariant `40 ≤ fuel + i` makes the
fuel-exhaustion branch unreachable — the loop guard `i < 40` always fails
first, so the embedding computes exactly the C loop. -/
def tsOptionWalk (off32 : Nat) (b : List Nat) (base hdrLen : Nat) :
    Nat → Nat → List Nat × List Nat
  | 0, _ => (b, [])
  | fuel + 1, i =>
    if i < 40 ∧ i < hdrLen - 20 then
      if getByte b (base + i) = 0 then (b, [base + i])
      else if getByte b (base + i) = 1 then
        let r := tsOptionWalk off32 b base hdrLen fuel (i + 1)
        (r.1, (base + i) :: r.2)
      else if getByte b (base + i) = 8 ∧ i + 9 < hdrLen - 20 then
        if base + i + 6 ≤ b.length then
          (setBe32 b (base + i + 2) ((be32 b (base + i + 2) + off32) % 4294967296),
            [base + i, base + i + 2, base + i + 3, base + i + 4, base + i + 5])
        else (b, [base + i])
      else
        if getByte b (base + i + 1) < 2 then (b, [base + i, base + i + 1])
        else
          let r := tsOptionWalk off32 b base hdrLen fuel (i + getByte b (base + i + 1))
          (r.1, (base + i) :: (base + i + 1) :: r.2)
    else (b, [])

/-- The MSS-clamping walk of `tcp_fingerprint_xdp` (kind 2: raise the 16-bit
value at option offset 2 to `m` when it is smaller).  Same shape, same fuel
convention, and the same unchecked length-byte read as `tsOptionWalk`. -/
def mssOptionWalk (m : Nat) (b : List Nat) (base hdrLen : Nat) :
    Nat → Nat → List Nat × List Nat
  | 0, _ => (b, [])
  | fuel + 1, i =>
    if i < 40 ∧ i < hdrLen - 20 then
      if getByte b (base + i) = 0 then (b, [base + i])
      else if getByte b (base + i) = 1 then
        let r := mssOptionWalk m b base hdrLen fuel (i + 1)
        (r.1, (base + i) :: r.2)
      else if getByte b (base + i) = 2 ∧ i + 3 < hdrLen - 20 then
        if base + i + 4 ≤ b.length then
          if be16 b (base + i + 2) < m then
            (setBe16 b (base + i + 2) m, [base + i, base + i + 2, base + i + 3])
          else (b, [base + i, base + i + 2, base + i + 3])
        else (b, [base + i])
      else
        if getByte b (base + i + 1) < 2 then (b, [base + i, base + i + 1])
        else
          let r := mssOptionWalk m b base hdrLen fuel (i + getByte b (base + i + 1))
          (r.1, (base + i) :: (base + i + 1) :: r.2)
    else (b, [])

/-! ## `tcp_fingerprint.c` programs -/

/-- The profile-application phase of `tcp_fingerprint_xdp`: TTL write, window
write on SYN-without-ACK, and (configured path only) the timestamp-aging and
MSS-clamping option walks.  `toff` is the TCP header offset computed by the
caller. -/
def tfxApply : Option tcp_config → List Nat → Nat → List Nat
  | none, b, toff =>
    let b1 := setByte b 22 (get_windows_profile.ttl % 256)
    if tcpSyn b1 toff && !tcpAck b1 toff then
      setBe16 b1 (toff + 14) (get_windows_profile.window_size % 65536)
    else b1
  | some cfg, b, toff =>
    let b1 := setByte b 22 (cfg.ttl % 256)
    let b2 :=
      if tcpSyn b1 toff && !tcpAck b1 toff then
        setBe16 b1 (toff + 14) (cfg.window_size % 65536)
      else b1
    let b3 :=
      if cfg.timestamp_offset % 4294967296 ≠ 0 then
        if 20 < tcpDoff b2 toff * 4 then
          if toff + tcpDoff b2 toff * 4 ≤ b2.length then
            (tsOptionWalk (cfg.timestamp_offset % 4294967296) b2
              (toff + 20) (tcpDoff b2 toff * 4) 40 0).1
          else b2
        else b2
      else b2
    if tcpSyn b3 toff && cfg.mss % 65536 != 0 then
      if 20 < tcpDoff b3 toff * 4 then
        if toff + tcpDoff b3 toff * 4 ≤ b3.length then
          (mssOptionWalk (cfg.mss % 65536) b3 (toff + 20) (tcpDoff b3 toff * 4) 40 0).1
        else b3
      else b3
    else b3

/-- The checksum-recompute phase of `tcp_fingerprint_xdp`: store the
full-recompute IPv4 checksum, then the full-recompute TCP checksum. -/
def tfxFinish (b : List Nat) (toff : Nat) : List Nat :=
  let b5 := setBe16 b 24 (update_ip_checksum b)
  setBe16 b5 (toff + 16) (update_tcp_checksum b5)

/-- `tcp_fingerprint_xdp`: parse Ethernet/IPv4/TCP with bounds checks, apply
the configured profile (or the built-in Windows default when the
`tcp_config_map` lookup misses), then recompute both checksums.
The `config` parameter is the `tcp_config_map` lookup result. -/
def tcp_fingerprint_xdp (config : Option tcp_config) (b : List Nat) :
    Nat × List Nat :=
  if b.length < 14 then (XDP_PASS, b)
  else if be16 b 12 ≠ 2048 then (XDP_PASS, b)
  else if b.length < 34 then (XDP_PASS, b)
  else if getByte b 23 ≠ 6 then (XDP_PASS, b)
  else if b.length < tcpOff b + 20 then (XDP_PASS, b)
  else (XDP_PASS, tfxFinish (tfxApply config b (tcpOff b)) (tcpOff b))

/-- `tcp_fingerprint_tc`: TTL always, window on every SYN (ACK not tested).
The trailing `bpf_l3_csum_replace(skb, …, 0, 0, 0)` adds a zero diff to the
stored IPv4 checksum and therefore leaves the buffer unchanged. -/
def tcp_fingerprint_tc (config : Option tcp_config) (b : List Nat) :
    Nat × List Nat :=
  if b.length < 14 then (TC_ACT_OK, b)
  else if be16 b 12 ≠ 2048 then (TC_ACT_OK, b)
  else if b.length < 34 then (TC_ACT_OK, b)
  else if getByte b 23 ≠ 6 then (TC_ACT_OK, b)
  else
    let toff := tcpOff b
    if b.length < toff + 20 then (TC_ACT_OK, b)
    else
      match config with
      | none => (TC_ACT_OK, b)
      | some cfg =>
        let b1 := setByte b 22 (cfg.ttl % 256)
        let b2 :=
          if tcpSyn b1 toff then setBe16 b1 (toff + 14) (cfg.window_size % 65536)
          else b1
        (TC_ACT_OK, b2)

/-! ## `network_shield_original.c` XDP program -/

/-- The TCP phase of `network_shield_xdp`: on SYN-without-ACK packets whose
TCP header fits, rewrite the window to the signature value and fix the TCP
checksum with the incremental `update_tcp_checksum`. -/
def nsoTcpPhase (sig : os_signature) (b1 : List Nat) : List Nat :=
  let toff := tcpOff b1
  if b1.length < toff + 20 then b1
  else if tcpSyn b1 toff && !tcpAck b1 toff then
    if be16 b1 (toff + 14) ≠ sig.tcp_window % 65536 then
      let b2 := setBe16 b1 (toff + 14) (sig.tcp_window % 65536)
      setBe16 b2 (toff + 16)
        (nso_update_tcp_checksum (be16 b2 (toff + 16)) (be16 b1 (toff + 14))
          (sig.tcp_window % 65536))
    else b1
  else b1

/-- `network_shield_xdp`: persona lookup with out-of-range clamp to
PERSONA_LINUX, TTL rewrite (when it differs) with full IPv4 checksum
recompute via `ip_checksum`, and on TCP the window/checksum phase.
All exits return `XDP_PASS` (the UDP branch only updates statistics).
The `persona_cfg` parameter is the `persona_config` map lookup result
(`PERSONA_LINUX` when missing). -/
def network_shield_xdp (persona_cfg : Option Nat) (b : List Nat) :
    Nat × List Nat :=
  if b.length < 14 then (XDP_PASS, b)
  else if be16 b 12 ≠ 2048 then (XDP_PASS, b)
  else if b.length < 34 then (XDP_PASS, b)
  else
    let persona := persona_cfg.getD 0
    let persona := if persona > 2 then 0 else persona
    let sig := signatures persona
    let b1 :=
      if getByte b 22 ≠ sig.ttl % 256 then
        let bt := setByte b 22 (sig.ttl % 256)
        setBe16 bt 24 (ip_checksum bt)
      else b
    if getByte b1 23 = 6 then (XDP_PASS, nsoTcpPhase sig b1)
    else (XDP_PASS, b1)

/-! ## `network_shield_v6.c` TC egress program -/

/-- The option walk of `titan_tc_egress`: kind/length walk with an explicit
bounds check before the length byte, rewriting MSS (kind 2) to the profile
value and window scale (kind 3) likewise, each with an incremental checksum
fixup.  `optsEnd` is the absolute offset `tcph + doff * 4`.  The mid-walk
`goto done` / `return TC_ACT_OK` exits both produce the caller's
`(TC_ACT_OK, bytes)` result, so the walk simply returns the buffer there;
the re-validation of `opts_end` after `bpf_l4_csum_replace` cannot fail
because the helper does not change the buffer length. -/
def titanOptionWalk (prof : os_tcp_profile) (b : List Nat)
    (toff base optsEnd : Nat) : Nat → Nat → List Nat
  | 0, _ => b
  | fuel + 1, i =>
    if i < 40 then
      if base + i < optsEnd then
        if getByte b (base + i) = 0 then b
        else if getByte b (base + i) = 1 then
          titanOptionWalk prof b toff base optsEnd fuel (i + 1)
        else if optsEnd ≤ base + i + 1 then b
        else
          if getByte b (base + i + 1) < 2 ∨ optsEnd < base + i + getByte b (base + i + 1)
          then b
          else
            let len := getByte b (base + i + 1)
            let b1 :=
              if getByte b (base + i) = 2 ∧ len = 4 ∧ base + i + 3 < optsEnd then
                let old_mss := getByte b (base + i + 2) * 256 + getByte b (base + i + 3)
                let new_mss := prof.mss % 65536
                if old_mss ≠ new_mss then
                  let bc := setBe16 b (toff + 16)
                    (csum_replace2 (be16 b (toff + 16)) old_mss new_mss)
                  setByte (setByte bc (base + i + 2) (new_mss / 256 % 256))
                    (base + i + 3) (new_mss % 256)
                else b
              else b
            if getByte b (base + i) = 3 ∧ len = 3 ∧ base + i + 2 < optsEnd then
              let old_scale := getByte b1 (base + i + 2)
              let new_scale := prof.window_scale % 256
              if old_scale ≠ new_scale then
                let b2 := setByte b1 (base + i + 2) new_scale
                let b3 := setBe16 b2 (toff + 16)
                  (csum_replace2 (be16 b2 (toff + 16)) old_scale new_scale)
                if b3.length < 54 then b3
                else titanOptionWalk prof b3 toff base optsEnd fuel (i + len)
              else titanOptionWalk prof b1 toff base optsEnd fuel (i + len)
            else titanOptionWalk prof b1 toff base optsEnd fuel (i + len)
      else b
    else b

/-- `titan_tc_egress` of `network_shield_v6.c`: config gate, parse, profile
lookup (pass through unmodified on a miss), TTL rewrite with `bpf_l3_csum_replace`
fixup, and on SYN packets a window rewrite plus the option walk.
`cfg` is the `titan_config_map` lookup, `profiles` the `titan_os_profiles`
ARRAY-map content. -/
def titan_tc_egress (cfg : Option titan_config)
    (profiles : Nat → os_tcp_profile) (b : List Nat) : Nat × List Nat :=
  match cfg with
  | none => (TC_ACT_OK, b)
  | some c =>
    if !c.tcp_fingerprint_enabled then (TC_ACT_OK, b)
    else if b.length < 14 then (TC_ACT_OK, b)
    else if be16 b 12 ≠ 2048 then (TC_ACT_OK, b)
    else if b.length < 34 then (TC_ACT_OK, b)
    else if getByte b 23 ≠ 6 then (TC_ACT_OK, b)
    else
      match get_os_profile profiles (c.os_profile % 256) with
      | none => (TC_ACT_OK, b)
      | some prof =>
        let b1 :=
          if getByte b 22 ≠ prof.ttl % 256 then
            let bc := setBe16 b 24
              (csum_replace2 (be16 b 24) (getByte b 22) (prof.ttl % 256))
            setByte bc 22 (prof.ttl % 256)
          else b
        let toff := tcpOff b1
        if b1.length < toff + 20 then (TC_ACT_OK, b1)
        else if tcpSyn b1 toff then
          let oldw := be16 b1 (toff + 14)
          let neww := prof.window_size % 65536
          let b2 :=
            if oldw ≠ neww then
              let bc := setBe16 b1 (toff + 16)
                (csum_replace2 (be16 b1 (toff + 16)) oldw neww)
              setBe16 bc (toff + 14) neww
            else b1
          let hdrLen := tcpDoff b2 toff * 4
          if hdrLen ≤ 20 then (TC_ACT_OK, b2)
          else if b2.length < toff + hdrLen then (TC_ACT_OK, b2)
          else (TC_ACT_OK, titanOptionWalk prof b2 toff (toff + 20) (toff + hdrLen) 40 0)
        else (TC_ACT_OK, b1)

/-! ## `xdp_outbound.c` XDP program -/

/-- `xdp_outbound_masking`: checks that the Ethernet+IPv4 headers fit (the
check `(void *)(ip + 1) > data_end` precedes the Ethertype test), then
unconditionally sets TTL to 64 and zeroes the identification field; for TCP
packets whose fixed-offset TCP header overlay does not fit it returns with
those edits already applied; otherwise it finally zeroes the IPv4 checksum
field. -/
def xdp_outbound_masking (b : List Nat) : Nat × List Nat :=
  if b.length < 34 then (XDP_PASS, b)
  else if be16 b 12 ≠ 2048 then (XDP_PASS, b)
  else
    let b1 := setByte b 22 64
    let b2 := setBe16 b1 18 0
    if getByte b2 23 = 6 ∧ b2.length < 54 then (XDP_PASS, b2)
    else (XDP_PASS, setBe16 b2 24 0)

/-! ## Support lemmas about the option walks -/

theorem mssOptionWalk_length (m : Nat) (b : List Nat) (base hdrLen : Nat) :
    ∀ fuel i, ((mssOptionWalk m b base hdrLen fuel i).1).length = b.length := by
  intro fuel
  induction fuel with
  | zero => intro i; rfl
  | succ n ih =>
    intro i
    simp only [mssOptionWalk]
    split_ifs <;> first | rfl | simp | exact ih _
    all_goals exact ih _

theorem tsOptionWalk_length (o : Nat) (b : List Nat) (base hdrLen : Nat) :
    ∀ fuel i, ((tsOptionWalk o b base hdrLen fuel i).1).length = b.length := by
  intro fuel
  induction fuel with
  | zero => intro i; rfl
  | succ n ih =>
    intro i
    simp only [tsOptionWalk]
    split_ifs <;> first | rfl | simp | exact ih _
    all_goals exact ih _

theorem mssOptionWalk_frame (m : Nat) (b : List Nat) (base hdrLen : Nat) :
    ∀ fuel i p, p < base + i + 2 →
      getByte ((mssOptionWalk m b base hdrLen fuel i).1) p = getByte b p := by
  intro fuel
  induction fuel with
  | zero => intro i p hp; rfl
  | succ n ih =>
    intro i p hp
    simp only [mssOptionWalk]
    split_ifs <;>
      first
        | rfl
        | exact ih (i + 1) p (by omega)
        | exact ih _ p (by omega)
        | exact getByte_setBe16_ne b (by omega) (by omega) m

theorem tsOptionWalk_frame (o : Nat) (b : List Nat) (base hdrLen : Nat) :
    ∀ fuel i p, p < base + i + 2 →
      getByte ((tsOptionWalk o b base hdrLen fuel i).1) p = getByte b p := by
  intro fuel
  induction fuel with
  | zero => intro i p hp; rfl
  | succ n ih =>
    intro i p hp
    simp only [tsOptionWalk]
    split_ifs <;>
      first
        | rfl
        | exact ih (i + 1) p (by omega)
        | exact ih _ p (by omega)
        | (show getByte (setBe32 b (base + i + 2) _) p = getByte b p
           unfold setBe32
           rw [getByte_setByte_ne _ (by omega), getByte_setByte_ne _ (by omega),
             getByte_setByte_ne _ (by omega), getByte_setByte_ne _ (by omega)])

/-! ## Concrete test vectors

Byte layouts: Ethernet 0–13 (Ethertype 0x0800 at 12–13), IPv4 14–33
(ihl nibble at 14, tot_len 16–17, id 18–19, ttl 22, protocol 23, checksum
24–25, saddr 26–29, daddr 30–33), TCP from 34 (window at +14, checksum at
+16, options from +20).
-/

/-- A well-formed 54-byte IPv4/TCP SYN packet (ihl = 5, doff = 5, no options),
with both checksum fields holding the values of the full-recompute helpers of
`tcp_fingerprint.c` (IPv4 checksum 23793 = 0x5CF1, TCP checksum 16434 = 0x4032). -/
def synPkt54 : List Nat :=
  [0, 0, 0, 0, 0, 0, 0, 0, 0, 0, 0, 0, 8, 0,
   69, 0, 0, 40, 18, 52, 64, 0, 64, 6, 92, 241, 192, 168, 1, 2, 10, 0, 0, 1,
   48, 57, 1, 187, 0, 0, 0, 1, 0, 0, 0, 0, 80, 2, 114, 16, 64, 50, 0, 0]

/-- A 70-byte IPv4/TCP SYN packet with doff = 9 and 16 option bytes:
MSS (kind 2, len 4, value 1400), two NOPs, timestamps (kind 8, len 10,
tsval = 100, tsecr = 0). -/
def synPktOpts70 : List Nat :=
  [0, 0, 0, 0, 0, 0, 0, 0, 0, 0, 0, 0, 8, 0,
   69, 0, 0, 56, 18, 52, 64, 0, 64, 6, 0, 0, 192, 168, 1, 2, 10, 0, 0, 1,
   48, 57, 1, 187, 0, 0, 0, 1, 0, 0, 0, 0, 144, 2, 114, 16, 0, 0, 0, 0,
   2, 4, 5, 120, 1, 1, 8, 10, 0, 0, 0, 100, 0, 0, 0, 0]

/-- A 58-byte IPv4/TCP SYN packet with doff = 6 whose 4 option bytes
`[1, 1, 1, 2]` (three NOPs then kind 2) end exactly at `data_end`. -/
def synPktOptsEnd58 : List Nat :=
  [0, 0, 0, 0, 0, 0, 0, 0, 0, 0, 0, 0, 8, 0,
   69, 0, 0, 44, 18, 52, 64, 0, 64, 6, 0, 0, 192, 168, 1, 2, 10, 0, 0, 1,
   48, 57, 1, 187, 0, 0, 0, 1, 0, 0, 0, 0, 96, 2, 114, 16, 0, 0, 0, 0,
   1, 1, 1, 2]

/-- A 58-byte IPv4/TCP SYN packet with doff = 6 carrying an MSS option
advertising 2000 (kind 2, len 4, value 0x07D0 at bytes 56–57). -/
def synPktMss2000 : List Nat :=
  [0, 0, 0, 0, 0, 0, 0, 0, 0, 0, 0, 0, 8, 0,
   69, 0, 0, 44, 18, 52, 64, 0, 64, 6, 0, 0, 192, 168, 1, 2, 10, 0, 0, 1,
   48, 57, 1, 187, 0, 0, 0, 1, 0, 0, 0, 0, 96, 2, 114, 16, 0, 0, 0, 0,
   2, 4, 7, 208]

/-- A 54-byte IPv4/TCP SYN-ACK packet (flags byte 0x12, window 29200). -/
def synAckPkt54 : List Nat :=
  [0, 0, 0, 0, 0, 0, 0, 0, 0, 0, 0, 0, 8, 0,
   69, 0, 0, 40, 18, 52, 64, 0, 64, 6, 0, 0, 192, 168, 1, 2, 10, 0, 0, 1,
   48, 57, 1, 187, 0, 0, 0, 1, 0, 0, 0, 0, 80, 18, 114, 16, 0, 0, 0, 0]

/-- A 34-byte buffer holding exactly Ethernet + IPv4 headers of a TCP packet
(protocol 6, ttl 128, id 0x1234) whose TCP header is entirely truncated. -/
def truncTcpPkt34 : List Nat :=
  [0, 0, 0, 0, 0, 0, 0, 0, 0, 0, 0, 0, 8, 0,
   69, 0, 0, 40, 18, 52, 64, 0, 128, 6, 0, 0, 192, 168, 1, 2, 10, 0, 0, 1]

/-- A 34-byte IPv4/UDP packet (protocol 17, ttl 128, id 0x1234). -/
def udpPkt34 : List Nat :=
  [0, 0, 0, 0, 0, 0, 0, 0, 0, 0, 0, 0, 8, 0,
   69, 0, 0, 28, 18, 52, 64, 0, 128, 17, 0, 0, 192, 168, 1, 2, 10, 0, 0, 1]

/-- An IPv4 header with options: ihl = 6 (24-byte IPv4 header, nonzero option
word `1 2 3 4` at bytes 34–37), followed by a 20-byte TCP header; 58 bytes. -/
def ipOptsPkt58 : List Nat :=
  [0, 0, 0, 0, 0, 0, 0, 0, 0, 0, 0, 0, 8, 0,
   70, 0, 0, 48, 18, 52, 64, 0, 64, 6, 0, 0, 192, 168, 1, 2, 10, 0, 0, 1,
   1, 2, 3, 4,
   48, 57, 1, 187, 0, 0, 0, 1, 0, 0, 0, 0, 80, 2, 114, 16, 0, 0, 0, 0]

/-- The `tcp_config` used by several witnesses: Windows-like profile with a
zero timestamp offset. -/
def cfgWin : tcp_config :=
  { ttl := 128, window_size := 64240, mss := 1460, window_scale := 8,
    sack_permitted := 1, timestamps := 1, timestamp_offset := 0 }

/-- `cfgWin` with a nonzero timestamp-aging offset. -/
def cfgWinTs1000 : tcp_config := { cfgWin with timestamp_offset := 1000 }

/-- An `os_tcp_profile` with the Windows 11 values the v6 loader installs
(ttl 128, window 64240, scale 8, mss 1460). -/
def profWin11 : os_tcp_profile :=
  { ttl := 128, window_size := 64240, window_scale := 8, mss := 1460,
    sack_ok := 1, timestamps := 1, nop_count := 2 }

/-! ## Claim C7 -/

/-- C7 (counterexample): the parenthetical generalization of C7 fails.  On a
34-byte buffer holding exactly Ethernet + IPv4 of a TCP packet, the TCP-header
overlay of `xdp_outbound_masking` extends past `data_end`, yet the returned
buffer is not byte-for-byte unchanged: TTL (byte 22) was already rewritten
128 → 64 and the identification field (bytes 18–19) zeroed before the failing
overlay check. -/
theorem xdp_outbound_truncated_tcp_modified :
    (xdp_outbound_masking truncTcpPkt34).1 = XDP_PASS ∧
      (xdp_outbound_masking truncTcpPkt34).2 ≠ truncTcpPkt34 ∧
      getByte (xdp_outbound_masking truncTcpPkt34).2 22 = 64 ∧
      getByte truncTcpPkt34 22 = 128 := by
  decide

/-- C7 (amended): for every buffer shorter than a fully-formed
Ethernet + IPv4 header, both `tcp_fingerprint_xdp` (any configuration) and
`xdp_outbound_masking` return a pass verdict with the buffer byte-for-byte
unchanged.  (When a *later* overlay — the transport header or options region —
extends past `data_end`, the programs still return a pass verdict but earlier
edits may already be applied, as the counterexample shows.) -/
theorem short_buffer_pass_unchanged (cfg : Option tcp_config) (b : List Nat)
    (h : b.length < 34) :
    tcp_fingerprint_xdp cfg b = (XDP_PASS, b) ∧
      xdp_outbound_masking b = (XDP_PASS, b) := by
  constructor
  · unfold tcp_fingerprint_xdp
    split_ifs <;> first | rfl | omega
  · unfold xdp_outbound_masking
    rw [if_pos h]

/-- C7 (witness): the amended theorem applied to a concrete 3-byte buffer. -/
theorem short_buffer_pass_unchanged_witness :
    ([0, 1, 2] : List Nat).length < 34 ∧
      tcp_fingerprint_xdp none [0, 1, 2] = (XDP_PASS, [0, 1, 2]) ∧
      xdp_outbound_masking [0, 1, 2] = (XDP_PASS, [0, 1, 2]) :=
  ⟨by decide, (short_buffer_pass_unchanged none [0, 1, 2] (by decide)).1,
    (short_buffer_pass_unchanged none [0, 1, 2] (by decide)).2⟩

/-! ## Claim C9 -/

theorem ipIhl_setByte (b : List Nat) {i : Nat} (h : i ≠ 14) (v : Nat) :
    ipIhl (setByte b i v) = ipIhl b := by
  unfold ipIhl
  rw [getByte_setByte_ne _ h]

theorem ipIhl_setBe16 (b : List Nat) {i : Nat} (h1 : (14 : Nat) ≠ i)
    (h2 : (14 : Nat) ≠ i + 1) (v : Nat) : ipIhl (setBe16 b i v) = ipIhl b := by
  unfold ipIhl
  rw [getByte_setBe16_ne b h1 h2]

theorem nsoTcpPhase_frame (sig : os_signature) (b1 : List Nat) (q : Nat)
    (hq : q < tcpOff b1) : getByte (nsoTcpPhase sig b1) q = getByte b1 q := by
  unfold nsoTcpPhase
  simp only []
  split_ifs <;> try rfl
  rw [getByte_setBe16_ne _ (by omega) (by omega),
    getByte_setBe16_ne _ (by omega) (by omega)]

/-- C9 (amended, general part): for every packet and persona, the only bytes
of the IPv4 header (offsets `q < 14 + ihl·4`) that `network_shield_xdp` can
change are the TTL byte (22) and the two checksum bytes (24, 25); every other
IPv4 header field, the identification field included, is unchanged.  The
window/TCP-checksum writes lie beyond the IPv4 header.  (In
`xdp_outbound_masking` the claim fails: see the counterexample, which shows
the identification field being zeroed.) -/
theorem network_shield_xdp_ip_header_local (p : Option Nat) (b : List Nat)
    (q : Nat) (hq : q < 14 + ipIhl b * 4) (h22 : q ≠ 22) (h24 : q ≠ 24)
    (h25 : q ≠ 25) :
    getByte (network_shield_xdp p b).2 q = getByte b q := by
  unfold network_shield_xdp
  split_ifs <;> try rfl
  simp only []
  generalize (signatures (if p.getD 0 > 2 then 0 else p.getD 0)) = s
  by_cases htt : getByte b 22 ≠ s.ttl % 256
  · rw [if_pos htt]
    set B := setBe16 (setByte b 22 (s.ttl % 256)) 24
      (ip_checksum (setByte b 22 (s.ttl % 256))) with hB
    have hihl : ipIhl B = ipIhl b := by
      rw [hB, ipIhl_setBe16 _ (by omega) (by omega), ipIhl_setByte _ (by omega)]
    have hby : getByte B q = getByte b q := by
      rw [hB, getByte_setBe16_ne _ (by omega) (by omega),
        getByte_setByte_ne _ (by omega)]
    by_cases hp6 : getByte B 23 = 6
    · rw [if_pos hp6]
      show getByte (nsoTcpPhase s B) q = getByte b q
      rw [nsoTcpPhase_frame _ _ _ (by unfold tcpOff; rw [hihl]; omega), hby]
    · rw [if_neg hp6]
      exact hby
  · rw [if_neg htt]
    by_cases hp6 : getByte b 23 = 6
    · rw [if_pos hp6]
      show getByte (nsoTcpPhase s b) q = getByte b q
      rw [nsoTcpPhase_frame _ _ _ (by unfold tcpOff; omega)]
    · rw [if_neg hp6]

/-- C9 (witness): the amended theorem applied to the concrete SYN packet at
the identification-field byte 18 (inside the IPv4 header, distinct from TTL
and checksum bytes). -/
theorem network_shield_xdp_ip_header_local_witness :
    18 < 14 + ipIhl synPkt54 * 4 ∧
      getByte (network_shield_xdp (some 1) synPkt54).2 18 = getByte synPkt54 18 :=
  ⟨by decide,
    network_shield_xdp_ip_header_local (some 1) synPkt54 18 (by decide)
      (by decide) (by decide) (by decide)⟩

/-- C9 (counterexample): `xdp_outbound_masking` violates the claim — on a
processed UDP packet only the TTL is "rewritten" in the claim's sense, yet
the identification byte 18 (neither the TTL byte nor a checksum byte) changes
from 0x12 to 0. -/
theorem xdp_outbound_zeroes_identification :
    getByte (xdp_outbound_masking udpPkt34).2 18 = 0 ∧
      getByte udpPkt34 18 = 18 := by
  decide

/-! ## Claim C4 -/

/-- C4 (counterexample): in `network_shield_v6.c` an out-of-range profile
identifier is *not* clamped to a default: with `os_profile = 99` (table
entries 0–3) `get_os_profile` misses and `titan_tc_egress` passes the packet
through unmodified — its TTL stays 64 instead of becoming the default
profile's 128, contradicting "the packet is still processed with that default
profile's values". -/
theorem titan_profile99_pass_unmodified :
    titan_tc_egress (some { tcp_fingerprint_enabled := true, os_profile := 99 })
        (fun _ => profWin11) synPkt54 = (TC_ACT_OK, synPkt54) ∧
      getByte synPkt54 22 = 64 ∧ (profWin11.ttl : Nat) = 128 := by
  decide

/-- C4 (amended): out-of-range profile identifiers never cause an
out-of-bounds table access, but the two resolvers differ: (1) in
`network_shield_original.c` a persona above 2 is clamped to the
PERSONA_LINUX default, and the packet is processed exactly as with persona 0;
(2) in `network_shield_v6.c`, `get_os_profile` returns no profile for any
identifier ≥ 4 (the ARRAY map's `max_entries`), and (3) `titan_tc_egress`
then passes the packet through unmodified rather than applying a default. -/
theorem profile_out_of_range_behavior :
    (∀ (p : Nat) (b : List Nat), p > 2 →
        network_shield_xdp (some p) b = network_shield_xdp (some 0) b) ∧
      (∀ (profiles : Nat → os_tcp_profile) (id : Nat), 4 ≤ id →
        get_os_profile profiles id = none) ∧
      (∀ (c : titan_config) (profiles : Nat → os_tcp_profile) (b : List Nat),
        c.tcp_fingerprint_enabled = true → 4 ≤ c.os_profile % 256 →
        titan_tc_egress (some c) profiles b = (TC_ACT_OK, b)) := by
  refine ⟨?_, ?_, ?_⟩
  · intro p b hp
    unfold network_shield_xdp
    simp [hp]
  · intro profiles id hid
    unfold get_os_profile
    rw [if_neg (by omega)]
  · intro c profiles b he hq
    unfold titan_tc_egress get_os_profile
    have h4 : ¬ (c.os_profile % 256 < 4) := by omega
    simp only [he, h4, Bool.not_true, if_false]
    split_ifs <;> rfl

/-- C4 (witness): the amended theorem at profile identifier 99 on the
concrete SYN packet. -/
theorem profile_out_of_range_behavior_witness :
    network_shield_xdp (some 99) synPkt54 = network_shield_xdp (some 0) synPkt54 ∧
      get_os_profile (fun _ => profWin11) 99 = none ∧
      titan_tc_egress (some { tcp_fingerprint_enabled := true, os_profile := 99 })
        (fun _ => profWin11) synPkt54 = (TC_ACT_OK, synPkt54) :=
  ⟨profile_out_of_range_behavior.1 99 synPkt54 (by decide),
    profile_out_of_range_behavior.2.1 _ 99 (by decide),
    profile_out_of_range_behavior.2.2 _ (fun _ => profWin11) synPkt54 (by decide)
      (by decide)⟩

/-! ## Claim C8 -/

theorem sumWords_le {b : List Nat} (hb : Bytes b) :
    ∀ n off, sumWords b off n ≤ n * 65535 := by
  intro n
  induction n with
  | zero => intro off; simp [sumWords]
  | succ n ih =>
    intro off
    have h1 := be16_lt hb off
    have h2 := ih (off + 2)
    simp only [sumWords]
    omega

theorem csum_fold_helper_eq {x : Nat} (hx : x < 4294967296) :
    csum_fold_helper x = 65535 - foldCarry x := by
  unfold csum_fold_helper
  rw [foldStep_four_eq_foldCarry hx, Nat.mod_eq_of_lt (foldCarry_lt x)]

theorem nsoIpSumAux_twenty (b0 : List Nat) :
    nsoIpSumAux b0 20 10 0 = sumWords b0 14 10 := by
  simp [nsoIpSumAux, sumWords]

/-- C8 (counterexample): for an IPv4 header with options (ihl = 6, nonzero
option word), the stored value of both full-recompute helpers differs from
the reference definition that sums over the declared `ihl × 4` bytes: the
helpers sum at most the first 20 bytes. -/
theorem ip_checksum_ihl6_differs_from_ref :
    ipIhl ipOptsPkt58 = 6 ∧
      update_ip_checksum ipOptsPkt58 ≠ ipChecksumRef ipOptsPkt58 ∧
      ip_checksum ipOptsPkt58 ≠ ipChecksumRef ipOptsPkt58 := by
  decide

theorem ip_checksum_ref_helper (x : List Nat) (hb : Bytes x) (h5 : ipIhl x = 5) :
    ip_checksum x = ipChecksumRef x ∧ update_ip_checksum x = ipChecksumRef x := by
  have hb0 : Bytes (setBe16 x 24 0) := bytes_setBe16 hb 24 0
  have hihl0 : ipIhl (setBe16 x 24 0) = ipIhl x :=
    ipIhl_setBe16 x (by omega) (by omega) 0
  have hsum : sumWords (setBe16 x 24 0) 14 10 ≤ 655350 := sumWords_le hb0 10 14
  constructor
  · unfold ip_checksum ipChecksumRef
    simp only []
    rw [hihl0, h5]
    norm_num
    rw [nsoIpSumAux_twenty]
  · unfold update_ip_checksum ipChecksumRef
    simp only []
    rw [h5]
    norm_num
    rw [csum_fold_helper_eq (by omega)]

/-- C8 (amended): the reference definition — zero the checksum field, sum the
header's big-endian words over the declared `ihl × 4` bytes, fold all carries,
complement — is matched by both implementations only for option-less headers
(`ihl = 5`): `update_ip_checksum` of `tcp_fingerprint.c` sums a fixed 20
bytes, and `ip_checksum` of `network_shield_original.c` bounds its unrolled
loop at 10 words, so for `ihl > 5` headers with a nonzero option word both
differ from the reference (see the counterexample). -/
theorem ip_checksum_matches_ref_ihl5 (b : List Nat) (hb : Bytes b)
    (h5 : ipIhl b = 5) :
    ip_checksum b = ipChecksumRef b ∧ update_ip_checksum b = ipChecksumRef b :=
  ip_checksum_ref_helper b hb h5

/-- C8 (witness): the amended theorem on the concrete option-less SYN packet. -/
theorem ip_checksum_matches_ref_ihl5_witness :
    ipIhl synPkt54 = 5 ∧
      ip_checksum synPkt54 = ipChecksumRef synPkt54 ∧
      update_ip_checksum synPkt54 = ipChecksumRef synPkt54 :=
  ⟨by decide, ip_checksum_matches_ref_ihl5 synPkt54 (by decide) (by decide)⟩

/-! ## Support lemmas about the `tcp_fingerprint_xdp` phases -/

theorem tfxFinish_getByte_ne (x : List Nat) (toff q : Nat) (h24 : q ≠ 24)
    (h25 : q ≠ 25) (h16 : q ≠ toff + 16) (h17 : q ≠ toff + 17) :
    getByte (tfxFinish x toff) q = getByte x q := by
  unfold tfxFinish
  rw [getByte_setBe16_ne _ (by omega) (by omega),
    getByte_setBe16_ne _ (by omega) (by omega)]

theorem tfxApply_length (cfg : Option tcp_config) (b : List Nat) (toff : Nat) :
    (tfxApply cfg b toff).length = b.length := by
  cases cfg with
  | none => simp only [tfxApply]; split_ifs <;> simp
  | some c =>
    simp only [tfxApply]
    split_ifs <;> simp [mssOptionWalk_length, tsOptionWalk_length]

/-- Outside the TTL byte, the window field, and the options region (which
starts at `toff + 20`, its first possible write at `toff + 22`), the
profile-application phase changes nothing. -/
theorem tfxApply_frame (cfg : Option tcp_config) (b : List Nat) (toff q : Nat)
    (h14 : 14 ≤ toff) (h22 : q ≠ 22) (hw1 : q ≠ toff + 14) (hw2 : q ≠ toff + 15)
    (hopts : q < toff + 22) :
    getByte (tfxApply cfg b toff) q = getByte b q := by
  cases cfg with
  | none =>
    simp only [tfxApply]
    split_ifs <;>
      first
        | rw [getByte_setBe16_ne _ (by omega) (by omega), getByte_setByte_ne _ (by omega)]
        | rw [getByte_setByte_ne _ (by omega)]
  | some c =>
    simp only [tfxApply]
    split_ifs <;>
      (repeat
        first
          | rw [mssOptionWalk_frame _ _ _ _ 40 0 q (by omega)]
          | rw [tsOptionWalk_frame _ _ _ _ 40 0 q (by omega)]
          | rw [getByte_setBe16_ne _ (by omega) (by omega)]
          | rw [getByte_setByte_ne _ (by omega)])

/-! ## Claim C2 -/

theorem be16_mssOptionWalk_frame (m : Nat) (b : List Nat) (base hdrLen : Nat)
    (fuel i p : Nat) (hp : p + 2 ≤ base + i + 2) :
    be16 ((mssOptionWalk m b base hdrLen fuel i).1) p = be16 b p := by
  unfold be16
  rw [mssOptionWalk_frame _ _ _ _ fuel i p (by omega),
    mssOptionWalk_frame _ _ _ _ fuel i (p + 1) (by omega)]

theorem be16_tsOptionWalk_frame (o : Nat) (b : List Nat) (base hdrLen : Nat)
    (fuel i p : Nat) (hp : p + 2 ≤ base + i + 2) :
    be16 ((tsOptionWalk o b base hdrLen fuel i).1) p = be16 b p := by
  unfold be16
  rw [tsOptionWalk_frame _ _ _ _ fuel i p (by omega),
    tsOptionWalk_frame _ _ _ _ fuel i (p + 1) (by omega)]

theorem be16_tfxFinish_ne (x : List Nat) (toff p : Nat) (h1 : p + 1 ≠ 24)
    (h2 : p ≠ 25) (h3 : p ≠ 24) (h4 : p + 1 ≠ toff + 16) (h5 : p ≠ toff + 17)
    (h6 : p ≠ toff + 16) :
    be16 (tfxFinish x toff) p = be16 x p := by
  unfold tfxFinish
  rw [be16_setBe16_ne _ h4 h5 h6, be16_setBe16_ne _ h1 h2 h3]

theorem tfxApply_some_window (c : tcp_config) (b : List Nat) (toff : Nat)
    (h14 : 14 ≤ toff) (hlen : toff + 20 ≤ b.length) :
    be16 (tfxApply (some c) b toff) (toff + 14) =
      if tcpSyn b toff && !tcpAck b toff then c.window_size % 65536
      else be16 b (toff + 14) := by
  simp only [tfxApply]
  have h13a : getByte (setByte b 22 (c.ttl % 256)) (toff + 13) =
      getByte b (toff + 13) := getByte_setByte_ne _ (by omega) _
  have hsyn1 : tcpSyn (setByte b 22 (c.ttl % 256)) toff = tcpSyn b toff := by
    unfold tcpSyn; rw [h13a]
  have hack1 : tcpAck (setByte b 22 (c.ttl % 256)) toff = tcpAck b toff := by
    unfold tcpAck; rw [h13a]
  rw [hsyn1, hack1]
  split_ifs <;>
    (repeat
      first
        | rw [be16_mssOptionWalk_frame _ _ _ _ 40 0 _ (by omega)]
        | rw [be16_tsOptionWalk_frame _ _ _ _ 40 0 _ (by omega)]) <;>
    first
      | rw [be16_setBe16_eq (by simp; omega) (by omega)]
      | (unfold be16; rw [getByte_setByte_ne _ (by omega), getByte_setByte_ne _ (by omega)])

/-- C2 (amended): with a configured profile, `tcp_fingerprint_xdp` overwrites
the TCP window field with the profile value exactly when SYN is set and ACK
unset, leaving it unchanged otherwise; but `tcp_fingerprint_tc` (like
`titan_tc_egress`, see the counterexample) tests only SYN, so it also
overwrites the window of SYN-ACK packets. -/
theorem window_rewrite_syn_conditions :
    (∀ (c : tcp_config) (b : List Nat),
      14 ≤ b.length → be16 b 12 = 2048 → 34 ≤ b.length → getByte b 23 = 6 →
      tcpOff b + 20 ≤ b.length →
      be16 (tcp_fingerprint_xdp (some c) b).2 (tcpOff b + 14) =
        if tcpSyn b (tcpOff b) && !tcpAck b (tcpOff b) then c.window_size % 65536
        else be16 b (tcpOff b + 14)) ∧
    (∀ (c : tcp_config) (b : List Nat),
      14 ≤ b.length → be16 b 12 = 2048 → 34 ≤ b.length → getByte b 23 = 6 →
      tcpOff b + 20 ≤ b.length →
      be16 (tcp_fingerprint_tc (some c) b).2 (tcpOff b + 14) =
        if tcpSyn b (tcpOff b) then c.window_size % 65536
        else be16 b (tcpOff b + 14)) := by
  constructor
  · intro c b hl1 hp hl2 h6 hl3
    unfold tcp_fingerprint_xdp
    rw [if_neg (by omega), if_neg (by simp [hp]), if_neg (by omega),
      if_neg (by simp [h6]), if_neg (by omega)]
    have ht : 14 ≤ tcpOff b := by unfold tcpOff; omega
    show be16 (tfxFinish (tfxApply (some c) b (tcpOff b)) (tcpOff b))
        (tcpOff b + 14) = _
    rw [be16_tfxFinish_ne _ _ _ (by omega) (by omega) (by omega) (by omega)
      (by omega) (by omega)]
    exact tfxApply_some_window c b (tcpOff b) ht hl3
  · intro c b hl1 hp hl2 h6 hl3
    unfold tcp_fingerprint_tc
    rw [if_neg (by omega), if_neg (by simp [hp]), if_neg (by omega),
      if_neg (by simp [h6]), if_neg (by omega)]
    have ht : 14 ≤ tcpOff b := by unfold tcpOff; omega
    simp only []
    have h13a : getByte (setByte b 22 (c.ttl % 256)) (tcpOff b + 13) =
        getByte b (tcpOff b + 13) := getByte_setByte_ne _ (by omega) _
    have hsyn1 : tcpSyn (setByte b 22 (c.ttl % 256)) (tcpOff b) =
        tcpSyn b (tcpOff b) := by
      unfold tcpSyn; rw [h13a]
    rw [hsyn1]
    split_ifs
    · rw [be16_setBe16_eq (by simp; omega) (by omega)]
    · unfold be16
      rw [getByte_setByte_ne _ (by omega), getByte_setByte_ne _ (by omega)]

/-- C2 (witness): the amended theorem on the concrete SYN packet (window is
rewritten to the configured 64240 by the XDP program) and on the concrete
SYN-ACK packet (window kept by the XDP program). -/
theorem window_rewrite_syn_conditions_witness :
    be16 (tcp_fingerprint_xdp (some cfgWin) synPkt54).2 48 =
      (if tcpSyn synPkt54 34 && !tcpAck synPkt54 34 then cfgWin.window_size % 65536
       else be16 synPkt54 48) ∧
    be16 (tcp_fingerprint_xdp (some cfgWin) synAckPkt54).2 48 =
      (if tcpSyn synAckPkt54 34 && !tcpAck synAckPkt54 34 then
        cfgWin.window_size % 65536
       else be16 synAckPkt54 48) :=
  ⟨window_rewrite_syn_conditions.1 cfgWin synPkt54 (by decide) (by decide)
      (by decide) (by decide) (by decide),
    window_rewrite_syn_conditions.1 cfgWin synAckPkt54 (by decide) (by decide)
      (by decide) (by decide) (by decide)⟩

/-- C2 (counterexample): the claim's "if and only if SYN set and ACK unset"
fails for `tcp_fingerprint_tc`: on a SYN-ACK packet (both flags set) the TC
program overwrites the window field (29200 → 64240). -/
theorem tc_rewrites_window_on_synack :
    tcpSyn synAckPkt54 34 = true ∧ tcpAck synAckPkt54 34 = true ∧
      be16 synAckPkt54 48 = 29200 ∧
      be16 (tcp_fingerprint_tc (some cfgWin) synAckPkt54).2 48 = 64240 := by
  decide

/-! ## Claim C10 -/

theorem tfxApply_none_frame (b : List Nat) (toff q : Nat) (h22 : q ≠ 22)
    (hw1 : q ≠ toff + 14) (hw2 : q ≠ toff + 15) :
    getByte (tfxApply none b toff) q = getByte b q := by
  simp only [tfxApply]
  split_ifs <;>
    first
      | rw [getByte_setBe16_ne _ (by omega) (by omega), getByte_setByte_ne _ (by omega)]
      | rw [getByte_setByte_ne _ (by omega)]

/-- C10: on the configuration-miss path (built-in Windows default profile),
`tcp_fingerprint_xdp` rewrites only the TTL byte (22), on SYN-without-ACK
packets the window field (`toff + 14/15`), and the two recomputed checksum
fields (24/25 and `toff + 16/17`); every other byte — in particular the whole
TCP options region from `toff + 20` on, even when MSS or timestamp options
are present — is byte-for-byte unchanged, in contrast to the configured path,
which also edits options. -/
theorem tcp_fingerprint_xdp_default_frame (b : List Nat) (q : Nat)
    (hl1 : 14 ≤ b.length) (hp : be16 b 12 = 2048) (hl2 : 34 ≤ b.length)
    (h6 : getByte b 23 = 6) (hl3 : tcpOff b + 20 ≤ b.length)
    (h22 : q ≠ 22) (h24 : q ≠ 24) (h25 : q ≠ 25)
    (hw1 : q ≠ tcpOff b + 14) (hw2 : q ≠ tcpOff b + 15)
    (hc1 : q ≠ tcpOff b + 16) (hc2 : q ≠ tcpOff b + 17) :
    getByte (tcp_fingerprint_xdp none b).2 q = getByte b q := by
  unfold tcp_fingerprint_xdp
  rw [if_neg (by omega), if_neg (by simp [hp]), if_neg (by omega),
    if_neg (by simp [h6]), if_neg (by omega)]
  show getByte (tfxFinish (tfxApply none b (tcpOff b)) (tcpOff b)) q = getByte b q
  rw [tfxFinish_getByte_ne _ _ _ h24 h25 hc1 hc2]
  exact tfxApply_none_frame b (tcpOff b) q h22 hw1 hw2

set_option maxRecDepth 4096 in
/-- C10 (witness): on the concrete SYN packet with options, the fallback path
leaves the MSS option bytes (56–57) and the timestamp-value bytes (62–65)
unchanged (while the configured path raises the MSS value, evaluated here for
contrast). -/
theorem tcp_fingerprint_xdp_default_frame_witness :
    getByte (tcp_fingerprint_xdp none synPktOpts70).2 56 =
        getByte synPktOpts70 56 ∧
      getByte (tcp_fingerprint_xdp none synPktOpts70).2 62 =
        getByte synPktOpts70 62 ∧
      be16 (tcp_fingerprint_xdp (some cfgWin) synPktOpts70).2 56 = 1460 ∧
      be16 synPktOpts70 56 = 1400 :=
  ⟨tcp_fingerprint_xdp_default_frame synPktOpts70 56 (by decide) (by decide)
      (by decide) (by decide) (by decide) (by decide) (by decide) (by decide)
      (by decide) (by decide) (by decide) (by decide),
    tcp_fingerprint_xdp_default_frame synPktOpts70 62 (by decide) (by decide)
      (by decide) (by decide) (by decide) (by decide) (by decide) (by decide)
      (by decide) (by decide) (by decide) (by decide),
    by decide, by decide⟩

/-! ## Claim C3 -/

theorem mssOptionWalk_raise_only (m : Nat) (b : List Nat) (base hdrLen : Nat) :
    ∀ fuel i, (mssOptionWalk m b base hdrLen fuel i).1 = b ∨
      ∃ j, getByte b (base + j) = 2 ∧ j + 3 < hdrLen - 20 ∧
        base + j + 4 ≤ b.length ∧ be16 b (base + j + 2) < m ∧
        (mssOptionWalk m b base hdrLen fuel i).1 = setBe16 b (base + j + 2) m := by
  intro fuel
  induction fuel with
  | zero => intro i; exact Or.inl rfl
  | succ n ih =>
    intro i
    simp only [mssOptionWalk]
    split_ifs with h g0 g1 g2 g3 g4 g5
    · exact Or.inl rfl
    · rcases ih (i + 1) with h1 | ⟨j, hj⟩
      · exact Or.inl h1
      · exact Or.inr ⟨j, hj⟩
    · exact Or.inr ⟨i, g2.1, g2.2, g3, g4, rfl⟩
    · exact Or.inl rfl
    · exact Or.inl rfl
    · exact Or.inl rfl
    · rcases ih (i + getByte b (base + i + 1)) with h1 | ⟨j, hj⟩
      · exact Or.inl h1
      · exact Or.inr ⟨j, hj⟩
    · exact Or.inl rfl

theorem tfxApply_nosyn (c : tcp_config) (b : List Nat) (toff : Nat)
    (h14 : 14 ≤ toff) (hs : tcpSyn b toff = false)
    (hoff : c.timestamp_offset % 4294967296 = 0) :
    tfxApply (some c) b toff = setByte b 22 (c.ttl % 256) := by
  simp only [tfxApply]
  have h13a : getByte (setByte b 22 (c.ttl % 256)) (toff + 13) =
      getByte b (toff + 13) := getByte_setByte_ne _ (by omega) _
  have hsyn1 : tcpSyn (setByte b 22 (c.ttl % 256)) toff = tcpSyn b toff := by
    unfold tcpSyn; rw [h13a]
  rw [hsyn1, hs]
  simp [hoff]
  intro h1 _ _ _
  rw [hsyn1, hs] at h1
  cases h1

/-- The SYN packet with options of `synPktOpts70`, but with only the ACK flag
set (flags byte 0x10). -/
def ackPktOpts70 : List Nat :=
  [0, 0, 0, 0, 0, 0, 0, 0, 0, 0, 0, 0, 8, 0,
   69, 0, 0, 56, 18, 52, 64, 0, 64, 6, 0, 0, 192, 168, 1, 2, 10, 0, 0, 1,
   48, 57, 1, 187, 0, 0, 0, 1, 0, 0, 0, 0, 144, 16, 114, 16, 0, 0, 0, 0,
   2, 4, 5, 120, 1, 1, 8, 10, 0, 0, 0, 100, 0, 0, 0, 0]

/-- C3 (amended): MSS rewriting is monotonic in `tcp_fingerprint_xdp` — its
MSS walk either leaves the buffer unchanged or raises a located MSS value
that was *smaller* than the configured target to exactly the target, and the
walk runs only on SYN packets (a non-SYN packet with timestamp aging disabled
keeps its whole options region, from the urgent pointer on, byte-for-byte).
In `titan_tc_egress`, however, the MSS option is set to the profile value
whenever it differs, which *lowers* an advertised MSS above the target:
2000 becomes 1460 on the concrete packet. -/
theorem mss_rewrite_monotonic :
    (∀ (m : Nat) (b : List Nat) (base hdrLen fuel i : Nat),
      (mssOptionWalk m b base hdrLen fuel i).1 = b ∨
      ∃ j, getByte b (base + j) = 2 ∧ j + 3 < hdrLen - 20 ∧
        base + j + 4 ≤ b.length ∧ be16 b (base + j + 2) < m ∧
        (mssOptionWalk m b base hdrLen fuel i).1 = setBe16 b (base + j + 2) m) ∧
    (∀ (c : tcp_config) (b : List Nat) (q : Nat),
      14 ≤ b.length → be16 b 12 = 2048 → 34 ≤ b.length → getByte b 23 = 6 →
      tcpOff b + 20 ≤ b.length → tcpSyn b (tcpOff b) = false →
      c.timestamp_offset % 4294967296 = 0 → tcpOff b + 18 ≤ q →
      getByte (tcp_fingerprint_xdp (some c) b).2 q = getByte b q) ∧
    (be16 synPktMss2000 56 = 2000 ∧ (profWin11.mss : Nat) = 1460 ∧
      be16 (titan_tc_egress (some { tcp_fingerprint_enabled := true, os_profile := 0 })
        (fun _ => profWin11) synPktMss2000).2 56 = 1460) := by
  refine ⟨fun m b base hdrLen fuel i =>
    mssOptionWalk_raise_only m b base hdrLen fuel i, ?_, by decide⟩
  intro c b q hl1 hp hl2 h6 hl3 hs hoff hq
  unfold tcp_fingerprint_xdp
  rw [if_neg (by omega), if_neg (by simp [hp]), if_neg (by omega),
    if_neg (by simp [h6]), if_neg (by omega)]
  have ht : 14 ≤ tcpOff b := by unfold tcpOff; omega
  show getByte (tfxFinish (tfxApply (some c) b (tcpOff b)) (tcpOff b)) q = getByte b q
  rw [tfxFinish_getByte_ne _ _ _ (by omega) (by omega) (by omega) (by omega),
    tfxApply_nosyn c b (tcpOff b) ht hs hoff, getByte_setByte_ne _ (by omega)]

/-- C3 (witness): the non-SYN part of the amended theorem at the concrete
ACK packet with options, at the MSS-value byte 56. -/
theorem mss_rewrite_monotonic_witness :
    getByte (tcp_fingerprint_xdp (some cfgWin) ackPktOpts70).2 56 =
      getByte ackPktOpts70 56 :=
  mss_rewrite_monotonic.2.1 cfgWin ackPktOpts70 56 (by decide) (by decide)
    (by decide) (by decide) (by decide) (by decide) (by decide) (by decide)

/-- C3 (counterexample): MSS rewriting is *not* monotonic in the repository:
`titan_tc_egress` lowers an advertised MSS of 2000 to the profile value 1460
on a SYN packet, contradicting "never lowered". -/
theorem titan_lowers_mss :
    be16 synPktMss2000 56 = 2000 ∧
      be16 (titan_tc_egress (some { tcp_fingerprint_enabled := true, os_profile := 0 })
        (fun _ => profWin11) synPktMss2000).2 56 = 1460 ∧ (1460 : Nat) < 2000 := by
  decide

/-! ## Claim C6 -/

/-- C6 (failing input): on a packet whose TCP options region ends exactly at
`data_end` (`synPktOptsEnd58`, options `[1, 1, 1, 2]`, `opts_end = data_end
= 58`), both option walks of `tcp_fingerprint_xdp` reach the kind-2 byte at
the last option offset and read the length byte `opts[i + 1]` — an offset
equal to `data_end` — because the C code (unlike the walk in
`titan_tc_egress`, which checks `opts + i + 1 >= opts_end` first) has no
bounds check before `__u8 opt_len = opts[i + 1]`.  The walks are invoked with
exactly the arguments the program passes (`base = toff + 20 = 54`,
`hdrLen = doff·4 = 24`, 40 iterations from 0). -/
theorem option_walk_reads_at_data_end :
    synPktOptsEnd58.length = 58 ∧
      58 ∈ (tsOptionWalk 1000 synPktOptsEnd58 54 24 40 0).2 ∧
      58 ∈ (mssOptionWalk 1460 synPktOptsEnd58 54 24 40 0).2 := by
  decide

/-! ## Claim C1 -/

theorem getByte_setByte_zero (x : List Nat) (i : Nat) :
    getByte (setByte x i 0) i = 0 := by
  by_cases h : i < x.length
  · exact getByte_setByte_eq (by simpa using h) 0
  · rw [setByte_oob x i (by omega)]
    exact getByte_oob (by omega)

theorem sumWords_congr : ∀ (n : Nat) {x y : List Nat} (off : Nat),
    (∀ q, off ≤ q → q < off + 2 * n → getByte x q = getByte y q) →
    sumWords x off n = sumWords y off n := by
  intro n
  induction n with
  | zero => intro x y off h; rfl
  | succ n ih =>
    intro x y off h
    show be16 x off + sumWords x (off + 2) n = be16 y off + sumWords y (off + 2) n
    have e1 : be16 x off = be16 y off := by
      unfold be16
      rw [h off (by omega) (by omega), h (off + 1) (by omega) (by omega)]
    rw [e1, ih (off + 2) (fun q h1 h2 => h q (by omega) (by omega))]

theorem update_ip_checksum_congr {x y : List Nat}
    (h : ∀ q, 14 ≤ q → q ≤ 33 → q ≠ 24 → q ≠ 25 → getByte x q = getByte y q) :
    update_ip_checksum x = update_ip_checksum y := by
  unfold update_ip_checksum
  simp only []
  refine congrArg csum_fold_helper (sumWords_congr 10 14 ?_)
  intro q h1 h2
  by_cases h24 : q = 24
  · subst h24
    show getByte (setBe16 x 24 0) 24 = getByte (setBe16 y 24 0) 24
    unfold setBe16
    norm_num
    rw [getByte_setByte_ne (setByte x 24 0) (show (25 : Nat) ≠ 24 by omega) 0,
      getByte_setByte_ne (setByte y 24 0) (show (25 : Nat) ≠ 24 by omega) 0,
      getByte_setByte_zero x 24, getByte_setByte_zero y 24]
  · by_cases h25 : q = 25
    · subst h25
      show getByte (setBe16 x 24 0) 25 = getByte (setBe16 y 24 0) 25
      unfold setBe16
      norm_num
      rw [getByte_setByte_zero (setByte x 24 0) 25,
        getByte_setByte_zero (setByte y 24 0) 25]
    · rw [getByte_setBe16_ne _ h24 (by omega), getByte_setBe16_ne _ h24 (by omega)]
      exact h q h1 (by omega) h24 h25

theorem csum_fold_helper_le (x : Nat) : csum_fold_helper x ≤ 65535 := by
  unfold csum_fold_helper
  omega

theorem nso_update_tcp_checksum_le (c o n : Nat) :
    nso_update_tcp_checksum c o n ≤ 65535 := by
  unfold nso_update_tcp_checksum
  omega

theorem ip_checksum_le (x : List Nat) : ip_checksum x ≤ 65535 := by
  unfold ip_checksum
  simp only []
  omega

theorem tfTcpWordsAux_all {x : List Nat} {toff : Nat} :
    ∀ n i, toff + 2 * i + 2 * n ≤ x.length →
      tfTcpWordsAux x toff n i = sumWords x (toff + 2 * i) n := by
  intro n
  induction n with
  | zero => intro i h; rfl
  | succ n ih =>
    intro i h
    show (if toff + 2 * i + 2 ≤ x.length then
        be16 x (toff + 2 * i) + tfTcpWordsAux x toff n (i + 1) else 0) = _
    rw [if_pos (by omega), ih (i + 1) (by omega)]
    show _ = be16 x (toff + 2 * i) + sumWords x (toff + 2 * i + 2) n
    have e : toff + 2 * (i + 1) = toff + 2 * i + 2 := by ring
    rw [e]

/-- The 16-bit-word sum covered by `update_tcp_checksum` on an `ihl = 5`
packet, with the window word (offset 48) removed: the four address words,
the protocol word 6, the truncated TCP-length word, and the remaining TCP
header words with the checksum word zeroed. -/
def tcpCsumRest (x : List Nat) : Nat :=
  be16 x 26 + be16 x 28 + be16 x 30 + be16 x 32 + 6 +
    ((be16 x 16 + 4294967296 - 20) % 4294967296) % 65536 +
    (be16 x 34 + be16 x 36 + be16 x 38 + be16 x 40 + be16 x 42 + be16 x 44 +
      be16 x 46 + be16 x 52)

set_option maxRecDepth 2048 in
theorem update_tcp_checksum_decomp (x : List Nat) (h5 : ipIhl x = 5)
    (hl : 54 ≤ x.length) :
    update_tcp_checksum x = csum_fold_helper (tcpCsumRest x + be16 x 48) := by
  unfold update_tcp_checksum
  simp only []
  have ht : tcpOff x = 34 := by unfold tcpOff; rw [h5]
  rw [ht, h5]
  norm_num
  have hlen0 : (setBe16 x 50 0).length = x.length := by simp
  rw [tfTcpWordsAux_all 10 0 (by omega)]
  norm_num
  have hsw : sumWords (setBe16 x 50 0) 34 10 =
      be16 x 34 + (be16 x 36 + (be16 x 38 + (be16 x 40 + (be16 x 42 +
        (be16 x 44 + (be16 x 46 + (be16 x 48 + (0 + (be16 x 52 + 0))))))))) := by
    show be16 (setBe16 x 50 0) 34 + (be16 (setBe16 x 50 0) 36 +
      (be16 (setBe16 x 50 0) 38 + (be16 (setBe16 x 50 0) 40 +
      (be16 (setBe16 x 50 0) 42 + (be16 (setBe16 x 50 0) 44 +
      (be16 (setBe16 x 50 0) 46 + (be16 (setBe16 x 50 0) 48 +
      (be16 (setBe16 x 50 0) 50 + (be16 (setBe16 x 50 0) 52 + 0))))))))) = _
    rw [be16_setBe16_ne x (i := 50) (j := 34) (by omega) (by omega) (by omega) 0]
    rw [be16_setBe16_ne x (i := 50) (j := 36) (by omega) (by omega) (by omega) 0]
    rw [be16_setBe16_ne x (i := 50) (j := 38) (by omega) (by omega) (by omega) 0]
    rw [be16_setBe16_ne x (i := 50) (j := 40) (by omega) (by omega) (by omega) 0]
    rw [be16_setBe16_ne x (i := 50) (j := 42) (by omega) (by omega) (by omega) 0]
    rw [be16_setBe16_ne x (i := 50) (j := 44) (by omega) (by omega) (by omega) 0]
    rw [be16_setBe16_ne x (i := 50) (j := 46) (by omega) (by omega) (by omega) 0]
    rw [be16_setBe16_ne x (i := 50) (j := 48) (by omega) (by omega) (by omega) 0]
    rw [be16_setBe16_ne x (i := 50) (j := 52) (by omega) (by omega) (by omega) 0]
    rw [be16_setBe16_eq (i := 50) (by omega) (by omega)]
  rw [hsw]
  rw [be16_setBe16_ne x (i := 50) (j := 26) (by omega) (by omega) (by omega) 0]
  rw [be16_setBe16_ne x (i := 50) (j := 28) (by omega) (by omega) (by omega) 0]
  rw [be16_setBe16_ne x (i := 50) (j := 30) (by omega) (by omega) (by omega) 0]
  rw [be16_setBe16_ne x (i := 50) (j := 32) (by omega) (by omega) (by omega) 0]
  unfold tcpCsumRest
  refine congrArg csum_fold_helper ?_
  omega

theorem tcpCsumRest_congr {x y : List Nat}
    (h : ∀ q, q = 16 ∨ q = 17 ∨ (26 ≤ q ∧ q ≤ 47) ∨ q = 52 ∨ q = 53 →
      getByte x q = getByte y q) :
    tcpCsumRest x = tcpCsumRest y := by
  unfold tcpCsumRest be16
  rw [h 16 (by omega), h 17 (by omega), h 26 (by omega), h 27 (by omega),
    h 28 (by omega), h 29 (by omega), h 30 (by omega), h 31 (by omega),
    h 32 (by omega), h 33 (by omega), h 34 (by omega), h 35 (by omega),
    h 36 (by omega), h 37 (by omega), h 38 (by omega), h 39 (by omega),
    h 40 (by omega), h 41 (by omega), h 42 (by omega), h 43 (by omega),
    h 44 (by omega), h 45 (by omega), h 46 (by omega), h 47 (by omega),
    h 52 (by omega), h 53 (by omega)]

theorem tcpCsumRest_pos (x : List Nat) : 0 < tcpCsumRest x := by
  unfold tcpCsumRest
  omega

theorem tcpCsumRest_lt {x : List Nat} (hb : Bytes x) : tcpCsumRest x < 983040 := by
  unfold tcpCsumRest
  have h1 := be16_lt hb 26
  have h2 := be16_lt hb 28
  have h3 := be16_lt hb 30
  have h4 := be16_lt hb 32
  have h5 := be16_lt hb 34
  have h6 := be16_lt hb 36
  have h7 := be16_lt hb 38
  have h8 := be16_lt hb 40
  have h9 := be16_lt hb 42
  have h10 := be16_lt hb 44
  have h11 := be16_lt hb 46
  have h12 := be16_lt hb 52
  omega

/-- The incremental checksum update of `network_shield_original.c` agrees
bit-for-bit with a full recompute when the stored checksum was itself the
full-recompute value: replacing the word `oldw` by `neww` in a sum
`rest + oldw` with `rest > 0`. -/
theorem nso_update_eq_full (rest oldw neww : Nat) (hrest : 0 < rest)
    (hb1 : rest + oldw < 4294967296) (hb2 : rest + neww < 4294967296)
    (ho : oldw < 65536) (hn : neww < 65536) :
    nso_update_tcp_checksum (csum_fold_helper (rest + oldw)) oldw neww =
      csum_fold_helper (rest + neww) := by
  unfold nso_update_tcp_checksum csum_fold_helper
  rw [foldStep_four_eq_foldCarry hb1, foldStep_four_eq_foldCarry hb2]
  have hF1 := foldCarry_lt (rest + oldw)
  have hF2 := foldCarry_mod (rest + oldw)
  have hF3 := foldCarry_ne_zero (x := rest + oldw) (by omega)
  have hG1 := foldCarry_lt (rest + neww)
  have hG2 := foldCarry_mod (rest + neww)
  have hG3 := foldCarry_ne_zero (x := rest + neww) (by omega)
  set F := foldCarry (rest + oldw) with hF
  have e1 : (65535 - F % 65536) % 65536 = 65535 - F := by omega
  have harg : (65535 - (65535 - F % 65536) % 65536) + (65535 - oldw % 65536) +
      neww % 65536 = F + (65535 - oldw) + neww := by omega
  rw [harg]
  have hS1 := foldCarry_lt (F + (65535 - oldw) + neww)
  have hS2 := foldCarry_mod (F + (65535 - oldw) + neww)
  have hS3 := foldCarry_ne_zero (x := F + (65535 - oldw) + neww) (by omega)
  omega

theorem nsoTcpPhase_preserves_valid (sig : os_signature) (B1 : List Nat)
    (hb : Bytes B1) (hl : 54 ≤ B1.length) (h5 : ipIhl B1 = 5)
    (hsyn : tcpSyn B1 34 = true) (hack : tcpAck B1 34 = false)
    (hipv : be16 B1 24 = update_ip_checksum B1)
    (htcv : be16 B1 50 = update_tcp_checksum B1) :
    be16 (nsoTcpPhase sig B1) 24 = update_ip_checksum (nsoTcpPhase sig B1) ∧
      be16 (nsoTcpPhase sig B1) 50 = update_tcp_checksum (nsoTcpPhase sig B1) := by
  have htoff : tcpOff B1 = 34 := by unfold tcpOff; rw [h5]
  unfold nsoTcpPhase
  simp only []
  rw [htoff]
  rw [if_neg (by omega), hsyn, hack]
  norm_num
  by_cases hW0 : be16 B1 48 = sig.tcp_window % 65536
  · rw [if_pos hW0]
    exact ⟨hipv, htcv⟩
  · rw [if_neg hW0]
    have hWlt : sig.tcp_window % 65536 < 65536 := by omega
    have hold : be16 B1 48 < 65536 := be16_lt hb 48
    have hb2 : Bytes (setBe16 B1 48 (sig.tcp_window % 65536)) := bytes_setBe16 hb _ _
    have hl2 : (setBe16 B1 48 (sig.tcp_window % 65536)).length = B1.length := by simp
    have hC : be16 (setBe16 B1 48 (sig.tcp_window % 65536)) 50 = be16 B1 50 :=
      be16_setBe16_ne B1 (i := 48) (j := 50) (by omega) (by omega) (by omega) _
    set W := sig.tcp_window % 65536 with hWdef
    set V := nso_update_tcp_checksum (be16 (setBe16 B1 48 W) 50) (be16 B1 48) W with hV
    set r := setBe16 (setBe16 B1 48 W) 50 V with hr
    have hrb : Bytes r := bytes_setBe16 hb2 _ _
    have hrlen : r.length = B1.length := by rw [hr]; simp
    have hrfr : ∀ q, q ≠ 48 → q ≠ 49 → q ≠ 50 → q ≠ 51 → getByte r q = getByte B1 q := by
      intro q h1 h2 h3 h4
      rw [hr, getByte_setBe16_ne _ (by omega) (by omega),
        getByte_setBe16_ne _ (by omega) (by omega)]
    have hr5 : ipIhl r = 5 := by
      unfold ipIhl
      rw [hrfr 14 (by omega) (by omega) (by omega) (by omega)]
      exact h5
    have hVle : V ≤ 65535 := nso_update_tcp_checksum_le _ _ _
    have hr50 : be16 r 50 = V := be16_setBe16_eq (by omega) (by omega)
    have hr48 : be16 r 48 = W := by
      rw [hr, be16_setBe16_ne _ (i := 50) (j := 48) (by omega) (by omega) (by omega)]
      exact be16_setBe16_eq (by omega) (by omega)
    have hrest : tcpCsumRest r = tcpCsumRest B1 := by
      apply tcpCsumRest_congr
      intro q hq
      exact hrfr q (by omega) (by omega) (by omega) (by omega)
    have hip_r : update_ip_checksum r = update_ip_checksum B1 := by
      apply update_ip_checksum_congr
      intro q hq1 hq2 hq3 hq4
      exact hrfr q (by omega) (by omega) (by omega) (by omega)
    have hip24 : be16 r 24 = be16 B1 24 := by
      unfold be16
      rw [hrfr 24 (by omega) (by omega) (by omega) (by omega),
        hrfr 25 (by omega) (by omega) (by omega) (by omega)]
    constructor
    · rw [hip24, hip_r, hipv]
    · rw [hr50, hV, hC, htcv, update_tcp_checksum_decomp B1 h5 hl,
        update_tcp_checksum_decomp r hr5 (by omega), hrest, hr48]
      exact nso_update_eq_full (tcpCsumRest B1) (be16 B1 48) W
        (tcpCsumRest_pos B1) (by have := tcpCsumRest_lt hb; omega)
        (by have := tcpCsumRest_lt hb; omega) hold (by omega)

/-- C1: for every well-formed IPv4/TCP SYN packet (ihl = 5, headers in
bounds, SYN set, ACK unset) whose stored checksums equal the full-recompute
reference values of `tcp_fingerprint.c`'s helpers, the checksums produced by
`network_shield_xdp` — which fixes the IPv4 checksum by full recompute and
the TCP checksum by the *incremental* `update_tcp_checksum` of
`network_shield_original.c` — are bit-for-bit the values an independent full
recompute (`update_ip_checksum` / `update_tcp_checksum` of
`tcp_fingerprint.c`) produces over the final header bytes. -/
theorem incremental_eq_full_pkt (p : Option Nat) (b : List Nat)
    (hb : Bytes b) (hl : 54 ≤ b.length) (h5 : ipIhl b = 5)
    (hp : be16 b 12 = 2048) (h6 : getByte b 23 = 6)
    (hsyn : tcpSyn b 34 = true) (hack : tcpAck b 34 = false)
    (hipv : be16 b 24 = update_ip_checksum b)
    (htcv : be16 b 50 = update_tcp_checksum b) :
    be16 (network_shield_xdp p b).2 24 =
        update_ip_checksum (network_shield_xdp p b).2 ∧
      be16 (network_shield_xdp p b).2 50 =
        update_tcp_checksum (network_shield_xdp p b).2 := by
  unfold network_shield_xdp
  rw [if_neg (by omega), if_neg (by simp [hp]), if_neg (by omega)]
  simp only []
  generalize (signatures (if p.getD 0 > 2 then 0 else p.getD 0)) = sig
  by_cases htt : getByte b 22 ≠ sig.ttl % 256
  · rw [if_pos htt]
    have hbtb : Bytes (setByte b 22 (sig.ttl % 256)) := bytes_setByte hb 22 (by omega)
    set bt := setByte b 22 (sig.ttl % 256) with hbt
    have hbt5 : ipIhl bt = 5 := by rw [hbt, ipIhl_setByte _ (by omega)]; exact h5
    have hbtlen : bt.length = b.length := by rw [hbt]; simp
    set B1 := setBe16 bt 24 (ip_checksum bt) with hB1
    have hB1b : Bytes B1 := bytes_setBe16 hbtb _ _
    have hB1len : B1.length = b.length := by rw [hB1]; simp [hbtlen]
    have hfr : ∀ q, q ≠ 22 → q ≠ 24 → q ≠ 25 → getByte B1 q = getByte b q := by
      intro q h1 h2 h3
      rw [hB1, getByte_setBe16_ne _ (by omega) (by omega), hbt,
        getByte_setByte_ne _ (by omega)]
    have h5B : ipIhl B1 = 5 := by
      unfold ipIhl
      rw [hfr 14 (by omega) (by omega) (by omega)]
      exact h5
    have h23 : getByte B1 23 = 6 := by rw [hfr 23 (by omega) (by omega) (by omega)]; exact h6
    have hsynB : tcpSyn B1 34 = true := by
      unfold tcpSyn
      rw [hfr 47 (by omega) (by omega) (by omega)]
      exact hsyn
    have hackB : tcpAck B1 34 = false := by
      unfold tcpAck
      rw [hfr 47 (by omega) (by omega) (by omega)]
      exact hack
    have hipck : ip_checksum bt = update_ip_checksum bt := by
      have h1 := ip_checksum_ref_helper bt hbtb hbt5
      exact h1.1.trans h1.2.symm
    have hB124 : be16 B1 24 = ip_checksum bt := by
      rw [hB1]
      exact be16_setBe16_eq (by rw [hbtlen]; omega)
        (by have := ip_checksum_le bt; omega)
    have hipcongr : update_ip_checksum B1 = update_ip_checksum bt := by
      apply update_ip_checksum_congr
      intro q h1 h2 h3 h4
      rw [hB1, getByte_setBe16_ne _ (by omega) (by omega)]
    have hipvB : be16 B1 24 = update_ip_checksum B1 := by
      rw [hB124, hipck, hipcongr]
    have htc_congr : update_tcp_checksum B1 = update_tcp_checksum b := by
      rw [update_tcp_checksum_decomp B1 h5B (by omega),
        update_tcp_checksum_decomp b h5 hl]
      have e1 : tcpCsumRest B1 = tcpCsumRest b := by
        apply tcpCsumRest_congr
        intro q hq
        exact hfr q (by omega) (by omega) (by omega)
      have e2 : be16 B1 48 = be16 b 48 := by
        unfold be16
        rw [hfr 48 (by omega) (by omega) (by omega),
          hfr 49 (by omega) (by omega) (by omega)]
      rw [e1, e2]
    have htcvB : be16 B1 50 = update_tcp_checksum B1 := by
      have e3 : be16 B1 50 = be16 b 50 := by
        unfold be16
        rw [hfr 50 (by omega) (by omega) (by omega),
          hfr 51 (by omega) (by omega) (by omega)]
      rw [e3, htcv, htc_congr]
    rw [if_pos h23]
    exact nsoTcpPhase_preserves_valid sig B1 hB1b (by omega) h5B hsynB hackB
      hipvB htcvB
  · rw [if_neg htt, if_pos h6]
    exact nsoTcpPhase_preserves_valid sig b hb hl h5 hsyn hack hipv htcv

/-- C1 (witness): the equivalence applied to the concrete valid-checksum SYN
packet under the Windows persona (TTL 64 → 128, window 29200 → 65535). -/
theorem incremental_eq_full_pkt_witness :
    be16 (network_shield_xdp (some 1) synPkt54).2 24 =
        update_ip_checksum (network_shield_xdp (some 1) synPkt54).2 ∧
      be16 (network_shield_xdp (some 1) synPkt54).2 50 =
        update_tcp_checksum (network_shield_xdp (some 1) synPkt54).2 :=
  incremental_eq_full_pkt (some 1) synPkt54 (by decide) (by decide) (by decide)
    (by decide) (by decide) (by decide) (by decide) (by decide) (by decide)

/-! ## Claim C5

Idempotence of `tcp_fingerprint_xdp`.  The TTL and window writes are
idempotent outright, and the MSS walk is idempotent because a raised value is
no longer below the target; but a nonzero timestamp offset is added to the
timestamp value again on every pass, so the claim holds exactly when the
configured offset is zero mod 2^32.  The support lemmas: commutation of the
MSS walk with writes below the options region (the checksum writes at offsets
24 and 50), idempotence of the walk itself, byte-range preservation, and the
identity writes `setByte_self`/`setBe16_self`. -/

theorem setBe16_setByte_comm (x : List Nat) {p q v w : Nat} (h1 : p ≠ q)
    (h2 : p ≠ q + 1) :
    setBe16 (setByte x p v) q w = setByte (setBe16 x q w) p v := by
  unfold setBe16
  rw [setByte_comm x p q (by omega), setByte_comm _ p (q + 1) (by omega)]

theorem mssOptionWalk_comm_setByte (m base hdrLen : Nat) :
    ∀ fuel x i p v, p < base →
      (mssOptionWalk m (setByte x p v) base hdrLen fuel i).1 =
        setByte ((mssOptionWalk m x base hdrLen fuel i).1) p v := by
  intro fuel
  induction fuel with
  | zero => intro x i p v hp; rfl
  | succ n ih =>
    intro x i p v hp
    have e0 : ∀ q, base ≤ q → getByte (setByte x p v) q = getByte x q :=
      fun q hq => getByte_setByte_ne x (by omega) v
    have e1 : be16 (setByte x p v) (base + i + 2) = be16 x (base + i + 2) := by
      unfold be16
      rw [e0 _ (by omega), e0 _ (by omega)]
    simp only [mssOptionWalk]
    rw [e0 (base + i) (by omega), e0 (base + i + 1) (by omega), e1,
      length_setByte]
    split_ifs <;>
      first
        | rfl
        | exact ih x (i + 1) p v hp
        | exact ih x _ p v hp
        | exact setBe16_setByte_comm x (by omega) (by omega)

theorem mssOptionWalk_idem (m base hdrLen : Nat) (hm : m < 65536) :
    ∀ fuel x i,
      (mssOptionWalk m ((mssOptionWalk m x base hdrLen fuel i).1) base hdrLen fuel i).1 =
        (mssOptionWalk m x base hdrLen fuel i).1 := by
  intro fuel
  induction fuel with
  | zero => intro x i; rfl
  | succ n ih =>
    intro x i
    by_cases hg : i < 40 ∧ i < hdrLen - 20
    · by_cases h0 : getByte x (base + i) = 0
      · have hinner : mssOptionWalk m x base hdrLen (n + 1) i = (x, [base + i]) := by
          rw [mssOptionWalk, if_pos hg, if_pos h0]
        rw [hinner, hinner]
      · by_cases h1 : getByte x (base + i) = 1
        · have hinner : (mssOptionWalk m x base hdrLen (n + 1) i).1 =
              (mssOptionWalk m x base hdrLen n (i + 1)).1 := by
            rw [mssOptionWalk, if_pos hg, if_neg h0, if_pos h1]
          rw [hinner]
          have hr0 : getByte ((mssOptionWalk m x base hdrLen n (i + 1)).1) (base + i) =
              getByte x (base + i) :=
            mssOptionWalk_frame m x base hdrLen n (i + 1) (base + i) (by omega)
          rw [mssOptionWalk, if_pos hg, if_neg (by rw [hr0]; exact h0),
            if_pos (by rw [hr0]; exact h1)]
          exact ih x (i + 1)
        · by_cases h2 : getByte x (base + i) = 2 ∧ i + 3 < hdrLen - 20
          · by_cases h3 : base + i + 4 ≤ x.length
            · by_cases h4 : be16 x (base + i + 2) < m
              · have hinner : (mssOptionWalk m x base hdrLen (n + 1) i).1 =
                    setBe16 x (base + i + 2) m := by
                  rw [mssOptionWalk, if_pos hg, if_neg h0, if_neg h1, if_pos h2,
                    if_pos h3, if_pos h4]
                rw [hinner]
                have hr0 : getByte (setBe16 x (base + i + 2) m) (base + i) =
                    getByte x (base + i) :=
                  getByte_setBe16_ne x (by omega) (by omega) m
                have hrv : be16 (setBe16 x (base + i + 2) m) (base + i + 2) = m :=
                  be16_setBe16_eq (by simpa using (by omega : base + i + 2 + 1 < x.length)) hm
                rw [mssOptionWalk, if_pos hg, if_neg (by rw [hr0]; exact h0),
                  if_neg (by rw [hr0]; exact h1),
                  if_pos (by rw [hr0]; exact h2),
                  if_pos (by simpa using h3), if_neg (by rw [hrv]; omega)]
              · have hinner : mssOptionWalk m x base hdrLen (n + 1) i =
                    (x, [base + i, base + i + 2, base + i + 3]) := by
                  rw [mssOptionWalk, if_pos hg, if_neg h0, if_neg h1, if_pos h2,
                    if_pos h3, if_neg h4]
                rw [hinner, hinner]
            · have hinner : mssOptionWalk m x base hdrLen (n + 1) i = (x, [base + i]) := by
                rw [mssOptionWalk, if_pos hg, if_neg h0, if_neg h1, if_pos h2,
                  if_neg h3]
              rw [hinner, hinner]
          · by_cases h5 : getByte x (base + i + 1) < 2
            · have hinner : mssOptionWalk m x base hdrLen (n + 1) i =
                  (x, [base + i, base + i + 1]) := by
                rw [mssOptionWalk, if_pos hg, if_neg h0, if_neg h1, if_neg h2,
                  if_pos h5]
              rw [hinner, hinner]
            · have hinner : (mssOptionWalk m x base hdrLen (n + 1) i).1 =
                  (mssOptionWalk m x base hdrLen n (i + getByte x (base + i + 1))).1 := by
                rw [mssOptionWalk, if_pos hg, if_neg h0, if_neg h1, if_neg h2,
                  if_neg h5]
              rw [hinner]
              have hr0 : getByte ((mssOptionWalk m x base hdrLen n
                  (i + getByte x (base + i + 1))).1) (base + i) = getByte x (base + i) :=
                mssOptionWalk_frame m x base hdrLen n _ (base + i) (by omega)
              have hr1 : getByte ((mssOptionWalk m x base hdrLen n
                  (i + getByte x (base + i + 1))).1) (base + i + 1) =
                  getByte x (base + i + 1) :=
                mssOptionWalk_frame m x base hdrLen n _ (base + i + 1) (by omega)
              rw [mssOptionWalk, if_pos hg, if_neg (by rw [hr0]; exact h0),
                if_neg (by rw [hr0]; exact h1),
                if_neg (by rw [hr0]; exact h2),
                if_neg (by rw [hr1]; exact h5), hr1]
              exact ih x (i + getByte x (base + i + 1))
    · have hinner : mssOptionWalk m x base hdrLen (n + 1) i = (x, []) := by
        rw [mssOptionWalk, if_neg hg]
      rw [hinner, hinner]

theorem mssOptionWalk_comm_setBe16 (m base hdrLen : Nat) (fuel : Nat)
    (x : List Nat) (i p v : Nat) (hp : p + 1 < base) :
    (mssOptionWalk m (setBe16 x p v) base hdrLen fuel i).1 =
      setBe16 ((mssOptionWalk m x base hdrLen fuel i).1) p v := by
  unfold setBe16
  rw [mssOptionWalk_comm_setByte m base hdrLen fuel _ i (p + 1) (v % 256) (by omega),
    mssOptionWalk_comm_setByte m base hdrLen fuel x i p (v / 256 % 256) (by omega)]

theorem mssOptionWalk_bytes {x : List Nat} (hb : Bytes x) (m base hdrLen : Nat) :
    ∀ fuel i, Bytes ((mssOptionWalk m x base hdrLen fuel i).1) := by
  intro fuel
  induction fuel with
  | zero => intro i; exact hb
  | succ n ih =>
    intro i
    simp only [mssOptionWalk]
    split_ifs <;> first | exact hb | exact ih _ | exact bytes_setBe16 hb _ _

theorem tsOptionWalk_bytes {x : List Nat} (hb : Bytes x) (o base hdrLen : Nat) :
    ∀ fuel i, Bytes ((tsOptionWalk o x base hdrLen fuel i).1) := by
  intro fuel
  induction fuel with
  | zero => intro i; exact hb
  | succ n ih =>
    intro i
    simp only [tsOptionWalk]
    split_ifs <;> first | exact hb | exact ih _ | exact bytes_setBe32 hb _ _

theorem tfxApply_bytes (cfg : Option tcp_config) (b : List Nat) (toff : Nat)
    (hb : Bytes b) : Bytes (tfxApply cfg b toff) := by
  cases cfg with
  | none =>
    simp only [tfxApply]
    have h1 : Bytes (setByte b 22 (get_windows_profile.ttl % 256)) :=
      bytes_setByte hb 22 (by omega)
    split_ifs
    · exact bytes_setBe16 h1 _ _
    · exact h1
  | some c =>
    simp only [tfxApply]
    have h1 : Bytes (setByte b 22 (c.ttl % 256)) := bytes_setByte hb 22 (by omega)
    split_ifs <;>
      first
        | exact h1
        | exact bytes_setBe16 h1 _ _
        | exact mssOptionWalk_bytes h1 _ _ _ _ _
        | exact mssOptionWalk_bytes (bytes_setBe16 h1 _ _) _ _ _ _ _
        | exact tsOptionWalk_bytes h1 _ _ _ _ _
        | exact tsOptionWalk_bytes (bytes_setBe16 h1 _ _) _ _ _ _ _
        | exact mssOptionWalk_bytes (tsOptionWalk_bytes h1 _ _ _ _ _) _ _ _ _ _
        | exact mssOptionWalk_bytes
            (tsOptionWalk_bytes (bytes_setBe16 h1 _ _) _ _ _ _ _) _ _ _ _ _

theorem setBe16_self {x : List Nat} (hb : Bytes x) {i v : Nat}
    (hv : be16 x i = v) (hlt : v < 65536) : setBe16 x i v = x := by
  have g0 := getByte_lt hb i
  have g1 := getByte_lt hb (i + 1)
  unfold be16 at hv
  unfold setBe16
  rw [setByte_self (show getByte x i = v / 256 % 256 by omega)]
  rw [setByte_self (show getByte x (i + 1) = v % 256 by omega)]

theorem tfxFinish_length (x : List Nat) (toff : Nat) :
    (tfxFinish x toff).length = x.length := by
  unfold tfxFinish
  simp

theorem tfxApply_some_ttl (c : tcp_config) (b : List Nat) (toff : Nat)
    (h14 : 14 ≤ toff) (hl : 22 < b.length) :
    getByte (tfxApply (some c) b toff) 22 = c.ttl % 256 := by
  simp only [tfxApply]
  split_ifs <;>
    (repeat
      first
        | rw [mssOptionWalk_frame _ _ _ _ 40 0 22 (by omega)]
        | rw [tsOptionWalk_frame _ _ _ _ 40 0 22 (by omega)]
        | rw [getByte_setBe16_ne _ (by omega) (by omega)]) <;>
    exact getByte_setByte_eq (by omega) _

theorem update_ip_checksum_le (x : List Nat) : update_ip_checksum x ≤ 65535 := by
  unfold update_ip_checksum
  simp only []
  exact csum_fold_helper_le _

theorem update_tcp_checksum_le (x : List Nat) : update_tcp_checksum x ≤ 65535 := by
  unfold update_tcp_checksum
  simp only []
  exact csum_fold_helper_le _

/-- C5 (amended): with a configured profile whose timestamp offset is zero
mod 2^32, `tcp_fingerprint_xdp` is idempotent on packets with a 5-word IPv4
header: running the program on its own output returns verdict and bytes
unchanged.  (With a nonzero offset the second pass advances the timestamp
value again; see the counterexample.) -/
theorem tfx_idempotent (c : tcp_config) (b : List Nat) (hb : Bytes b)
    (h5 : ipIhl b = 5) (hoff : c.timestamp_offset % 4294967296 = 0) :
    tcp_fingerprint_xdp (some c) (tcp_fingerprint_xdp (some c) b).2 =
      tcp_fingerprint_xdp (some c) b := by
  by_cases g1 : b.length < 14
  · have hp1 : tcp_fingerprint_xdp (some c) b = (XDP_PASS, b) := by
      unfold tcp_fingerprint_xdp; rw [if_pos g1]
    rw [hp1]; exact hp1
  by_cases g2 : be16 b 12 ≠ 2048
  · have hp1 : tcp_fingerprint_xdp (some c) b = (XDP_PASS, b) := by
      unfold tcp_fingerprint_xdp; rw [if_neg g1, if_pos g2]
    rw [hp1]; exact hp1
  by_cases g3 : b.length < 34
  · have hp1 : tcp_fingerprint_xdp (some c) b = (XDP_PASS, b) := by
      unfold tcp_fingerprint_xdp; rw [if_neg g1, if_neg g2, if_pos g3]
    rw [hp1]; exact hp1
  by_cases g4 : getByte b 23 ≠ 6
  · have hp1 : tcp_fingerprint_xdp (some c) b = (XDP_PASS, b) := by
      unfold tcp_fingerprint_xdp; rw [if_neg g1, if_neg g2, if_neg g3, if_pos g4]
    rw [hp1]; exact hp1
  have htoff : tcpOff b = 34 := by unfold tcpOff; rw [h5]
  by_cases g5 : b.length < 54
  · have hp1 : tcp_fingerprint_xdp (some c) b = (XDP_PASS, b) := by
      unfold tcp_fingerprint_xdp
      rw [if_neg g1, if_neg g2, if_neg g3, if_neg g4, htoff, if_pos (by omega)]
    rw [hp1]; exact hp1
  have hlen : 54 ≤ b.length := by omega
  have hp1 : tcp_fingerprint_xdp (some c) b =
      (XDP_PASS, tfxFinish (tfxApply (some c) b 34) 34) := by
    unfold tcp_fingerprint_xdp
    rw [if_neg g1, if_neg g2, if_neg g3, if_neg g4, htoff, if_neg (by omega)]
  set w := tfxApply (some c) b 34 with hwdef
  have hr0 : tfxFinish w 34 = setBe16 (setBe16 w 24 (update_ip_checksum w)) 50
      (update_tcp_checksum (setBe16 w 24 (update_ip_checksum w))) := by
    unfold tfxFinish
    norm_num
  set Y := setBe16 w 24 (update_ip_checksum w) with hYdef
  set R := setBe16 Y 50 (update_tcp_checksum Y) with hRdef
  have hwB : Bytes w := tfxApply_bytes _ _ _ hb
  have hYB : Bytes Y := bytes_setBe16 hwB _ _
  have hRB : Bytes R := bytes_setBe16 hYB _ _
  have hwlen : w.length = b.length := tfxApply_length _ _ _
  have hYlen : Y.length = b.length := by rw [hYdef]; simp [hwlen]
  have hRlen : R.length = b.length := by rw [hRdef]; simp [hYlen]
  have hfw : ∀ q, q ≠ 22 → q ≠ 48 → q ≠ 49 → q < 56 → getByte w q = getByte b q :=
    fun q a hq1 hq2 hq3 =>
      tfxApply_frame (some c) b 34 q (by omega) a hq1 hq2 (by omega)
  have hfr : ∀ q, q ≠ 24 → q ≠ 25 → q ≠ 50 → q ≠ 51 → getByte R q = getByte w q := by
    intro q a1 a2 a3 a4
    rw [hRdef, getByte_setBe16_ne _ (by omega) (by omega), hYdef,
      getByte_setBe16_ne _ (by omega) (by omega)]
  have hfRb : ∀ q, q ≠ 22 → q ≠ 24 → q ≠ 25 → q ≠ 48 → q ≠ 49 → q ≠ 50 →
      q ≠ 51 → q < 56 → getByte R q = getByte b q := by
    intro q a1 a2 a3 a4 a5 a6 a7 a8
    rw [hfr q a2 a3 a6 a7]
    exact hfw q a1 a4 a5 a8
  have hR12 : be16 R 12 = 2048 := by
    unfold be16
    rw [hfRb 12 (by omega) (by omega) (by omega) (by omega) (by omega) (by omega)
      (by omega) (by omega), hfRb 13 (by omega) (by omega) (by omega) (by omega)
      (by omega) (by omega) (by omega) (by omega)]
    exact not_not.mp g2
  have hR23 : getByte R 23 = 6 := by
    rw [hfRb 23 (by omega) (by omega) (by omega) (by omega) (by omega) (by omega)
      (by omega) (by omega)]
    exact not_not.mp g4
  have hR5 : ipIhl R = 5 := by
    unfold ipIhl
    rw [hfRb 14 (by omega) (by omega) (by omega) (by omega) (by omega) (by omega)
      (by omega) (by omega)]
    exact h5
  have htoffR : tcpOff R = 34 := by unfold tcpOff; rw [hR5]
  have hsynR : tcpSyn R 34 = tcpSyn b 34 := by
    unfold tcpSyn
    rw [hfRb 47 (by omega) (by omega) (by omega) (by omega) (by omega) (by omega)
      (by omega) (by omega)]
  have hackR : tcpAck R 34 = tcpAck b 34 := by
    unfold tcpAck
    rw [hfRb 47 (by omega) (by omega) (by omega) (by omega) (by omega) (by omega)
      (by omega) (by omega)]
  have hdoffR : tcpDoff R 34 = tcpDoff b 34 := by
    unfold tcpDoff
    rw [hfRb 46 (by omega) (by omega) (by omega) (by omega) (by omega) (by omega)
      (by omega) (by omega)]
  have hp2 : tcp_fingerprint_xdp (some c) R =
      (XDP_PASS, tfxFinish (tfxApply (some c) R 34) 34) := by
    unfold tcp_fingerprint_xdp
    rw [if_neg (by omega), if_neg (by simp [hR12]), if_neg (by omega),
      if_neg (by simp [hR23]), htoffR, if_neg (by omega)]
  -- Step A: the profile-application phase is the identity on R
  have hR22 : getByte R 22 = c.ttl % 256 := by
    rw [hfr 22 (by omega) (by omega) (by omega) (by omega), hwdef]
    exact tfxApply_some_ttl c b 34 (by omega) (by omega)
  have hw48R : be16 R 48 = be16 w 48 := by
    unfold be16
    rw [hfr 48 (by omega) (by omega) (by omega) (by omega),
      hfr 49 (by omega) (by omega) (by omega) (by omega)]
  have hkey : ∀ U : List Nat,
      w = (mssOptionWalk (c.mss % 65536) U 54 (tcpDoff b 34 * 4) 40 0).1 →
      (mssOptionWalk (c.mss % 65536) R 54 (tcpDoff b 34 * 4) 40 0).1 = R := by
    intro U hU
    have hww : (mssOptionWalk (c.mss % 65536) w 54 (tcpDoff b 34 * 4) 40 0).1 = w := by
      rw [hU]
      exact mssOptionWalk_idem _ 54 _ (by omega) 40 U 0
    rw [hRdef, hYdef,
      mssOptionWalk_comm_setBe16 _ 54 _ 40 _ 0 50 _ (by omega),
      mssOptionWalk_comm_setBe16 _ 54 _ 40 _ 0 24 _ (by omega),
      hww]
  have h47b1 : getByte (setByte b 22 (c.ttl % 256)) 47 = getByte b 47 :=
    getByte_setByte_ne _ (by omega) _
  have hsyn1 : tcpSyn (setByte b 22 (c.ttl % 256)) 34 = tcpSyn b 34 := by
    unfold tcpSyn; rw [h47b1]
  have hack1 : tcpAck (setByte b 22 (c.ttl % 256)) 34 = tcpAck b 34 := by
    unfold tcpAck; rw [h47b1]
  have hApply : tfxApply (some c) R 34 = R := by
    simp only [tfxApply]
    rw [setByte_self hR22, hsynR, hackR, if_neg (not_not.mpr hoff)]
    by_cases hcw : (tcpSyn b 34 && !tcpAck b 34) = true
    · rw [if_pos hcw]
      have hw48 : be16 R 48 = c.window_size % 65536 := by
        rw [hw48R, hwdef]
        have hwin := tfxApply_some_window c b 34 (by omega) (by omega)
        rw [if_pos hcw] at hwin
        exact hwin
      rw [setBe16_self hRB hw48 (by omega), hsynR, hdoffR, hRlen]
      by_cases hm : (tcpSyn b 34 && (c.mss % 65536 != 0)) = true
      · rw [if_pos hm]
        by_cases h20 : 20 < tcpDoff b 34 * 4
        · rw [if_pos h20]
          by_cases hle : 34 + tcpDoff b 34 * 4 ≤ b.length
          · rw [if_pos hle]
            refine hkey (setBe16 (setByte b 22 (c.ttl % 256)) 48
              (c.window_size % 65536)) ?_
            rw [hwdef]
            simp only [tfxApply]
            rw [hsyn1, hack1, if_pos hcw, if_neg (not_not.mpr hoff)]
            have h46u : getByte (setBe16 (setByte b 22 (c.ttl % 256)) 48
                (c.window_size % 65536)) 46 = getByte b 46 := by
              rw [getByte_setBe16_ne _ (by omega) (by omega),
                getByte_setByte_ne _ (by omega)]
            have hdoffu : tcpDoff (setBe16 (setByte b 22 (c.ttl % 256)) 48
                (c.window_size % 65536)) 34 = tcpDoff b 34 := by
              unfold tcpDoff; rw [h46u]
            have h47u : getByte (setBe16 (setByte b 22 (c.ttl % 256)) 48
                (c.window_size % 65536)) 47 = getByte b 47 := by
              rw [getByte_setBe16_ne _ (by omega) (by omega),
                getByte_setByte_ne _ (by omega)]
            have hsynu : tcpSyn (setBe16 (setByte b 22 (c.ttl % 256)) 48
                (c.window_size % 65536)) 34 = tcpSyn b 34 := by
              unfold tcpSyn; rw [h47u]
            have hlenu : (setBe16 (setByte b 22 (c.ttl % 256)) 48
                (c.window_size % 65536)).length = b.length := by simp
            rw [hsynu, hdoffu, if_pos hm, if_pos h20, hlenu, if_pos hle]
          · rw [if_neg hle]
        · rw [if_neg h20]
      · rw [if_neg hm]
    · rw [if_neg hcw]
      rw [hsynR, hdoffR, hRlen]
      by_cases hm : (tcpSyn b 34 && (c.mss % 65536 != 0)) = true
      · rw [if_pos hm]
        by_cases h20 : 20 < tcpDoff b 34 * 4
        · rw [if_pos h20]
          by_cases hle : 34 + tcpDoff b 34 * 4 ≤ b.length
          · rw [if_pos hle]
            refine hkey (setByte b 22 (c.ttl % 256)) ?_
            rw [hwdef]
            simp only [tfxApply]
            rw [hsyn1, hack1, if_neg hcw, if_neg (not_not.mpr hoff)]
            have hdoffu : tcpDoff (setByte b 22 (c.ttl % 256)) 34 = tcpDoff b 34 := by
              unfold tcpDoff; rw [getByte_setByte_ne _ (by omega)]
            rw [hsyn1, hdoffu, if_pos hm, if_pos h20, length_setByte, if_pos hle]
          · rw [if_neg hle]
        · rw [if_neg h20]
      · rw [if_neg hm]
  -- Step B: the checksum-recompute phase is the identity on R
  have hip : update_ip_checksum R = be16 R 24 := by
    have h1 : update_ip_checksum R = update_ip_checksum w := by
      refine update_ip_checksum_congr ?_
      intro q hq1 hq2 hq3 hq4
      exact hfr q hq3 hq4 (by omega) (by omega)
    have h2 : be16 R 24 = update_ip_checksum w := by
      rw [hRdef, be16_setBe16_ne _ (by omega) (by omega) (by omega), hYdef,
        @be16_setBe16_eq w 24 (by omega) (update_ip_checksum w)
          (by have := update_ip_checksum_le w; omega)]
    rw [h1, h2]
  have hY5 : ipIhl Y = 5 := by
    unfold ipIhl
    rw [hYdef, getByte_setBe16_ne _ (by omega) (by omega),
      hfw 14 (by omega) (by omega) (by omega) (by omega)]
    exact h5
  have htc : update_tcp_checksum R = be16 R 50 := by
    have hd1 : update_tcp_checksum R = csum_fold_helper (tcpCsumRest R + be16 R 48) :=
      update_tcp_checksum_decomp R hR5 (by omega)
    have hd2 : update_tcp_checksum Y = csum_fold_helper (tcpCsumRest Y + be16 Y 48) :=
      update_tcp_checksum_decomp Y hY5 (by omega)
    have hrest : tcpCsumRest R = tcpCsumRest Y := by
      refine tcpCsumRest_congr ?_
      intro q hq
      rw [hRdef]
      exact getByte_setBe16_ne _ (by omega) (by omega) _
    have h48Y : be16 R 48 = be16 Y 48 := by
      rw [hRdef, be16_setBe16_ne _ (by omega) (by omega) (by omega)]
    have hB : be16 R 50 = update_tcp_checksum Y := by
      rw [hRdef, @be16_setBe16_eq Y 50 (by omega) (update_tcp_checksum Y)
        (by have := update_tcp_checksum_le Y; omega)]
    rw [hd1, hrest, h48Y, hB, hd2]
  have hFinish : tfxFinish R 34 = R := by
    unfold tfxFinish
    simp only []
    rw [setBe16_self hRB hip.symm (by have := update_ip_checksum_le R; omega),
      setBe16_self hRB htc.symm (by have := update_tcp_checksum_le R; omega)]
  rw [hp1]
  show tcp_fingerprint_xdp (some c) (tfxFinish w 34) = (XDP_PASS, tfxFinish w 34)
  rw [hr0, hp2, hApply, hFinish]

set_option maxRecDepth 8192 in
/-- Counterexample to C5 as stated: with timestamp offset 1000 the second
pass advances `tsval` again (100 -> 1100 -> 2100), so the output buffer is not
a fixed point. -/
theorem tfx_second_pass_changes_timestamp :
    (tcp_fingerprint_xdp (some cfgWinTs1000)
        (tcp_fingerprint_xdp (some cfgWinTs1000) synPktOpts70).2).2 ≠
      (tcp_fingerprint_xdp (some cfgWinTs1000) synPktOpts70).2 := by
  decide

set_option maxRecDepth 8192 in
/-- Witness for C5: the SYN packet with options and a profile whose
timestamp offset is zero satisfies the hypotheses, and both passes agree. -/
theorem tfx_idempotent_witness :
    Bytes synPktOpts70 ∧ ipIhl synPktOpts70 = 5 ∧
      cfgWin.timestamp_offset % 4294967296 = 0 ∧
      tcp_fingerprint_xdp (some cfgWin)
          (tcp_fingerprint_xdp (some cfgWin) synPktOpts70).2 =
        tcp_fingerprint_xdp (some cfgWin) synPktOpts70 :=
  ⟨by decide, by decide, by decide,
    tfx_idempotent cfgWin synPktOpts70 (by decide) (by decide) (by decide)⟩
